import Mathlib

/-!
Verification development for the missilery_scraper repository.

Shallow embedding of the crawl/extraction pipeline
(missilery_scraper/spiders/missile_spider.py) and of the structured import
pipeline (missilery_db/import_json_to_db.py, missilery_db/database_models.py),
together with theorems settling the specification claims.

Modelling conventions:
- Python strings are Lean `String`s; Python `len` and slicing are code-point
  based, which matches `String.data` (`List Char`) length/take.
- HTML parsing (Scrapy selectors / BeautifulSoup) is the external collaborator:
  markup fragments enter the model already parsed into the fields the source
  reads from them (heading link text/href, anchor lists, pagination hrefs).
- The SQLAlchemy session is modelled as an explicit state record of lists of
  rows; `session.add` appends, `session.flush` allocates the next id,
  `query(...).filter_by(...).first()` is `List.find?`, in-place mutation of a
  fetched ORM object is `replaceFirst`, and `.delete()` on a filtered query is
  `List.filter` with the negated predicate.
- `datetime.utcnow()` is an abstract tick passed in as a `Nat` parameter.
- Python Unicode `str.isalnum` is passed in as an opaque predicate
  `isAl : Char → Bool`; every theorem below holds for every such predicate.
-/

namespace Missilery

/-! ## Python string primitives -/

/-- Python `str.strip()` (no argument): drop whitespace from both ends. -/
def pyStrip (s : String) : String :=
  String.mk (((s.data.dropWhile Char.isWhitespace).reverse.dropWhile Char.isWhitespace).reverse)

/-- Python `s[:n]` slicing on code points. -/
def pySlice (n : Nat) (s : String) : String :=
  String.mk (s.data.take n)

/-! ## Transliteration (constants.py TRANSLITERATION_MAP, lines 95-106) -/

/-- The fixed Russian-to-Latin transliteration table `TRANSLITERATION_MAP`. -/
def translitChar : Char → Option String
  | 'а' => some "a" | 'б' => some "b" | 'в' => some "v" | 'г' => some "g"
  | 'д' => some "d" | 'е' => some "e" | 'ё' => some "yo" | 'ж' => some "zh"
  | 'з' => some "z" | 'и' => some "i" | 'й' => some "y" | 'к' => some "k"
  | 'л' => some "l" | 'м' => some "m" | 'н' => some "n" | 'о' => some "o"
  | 'п' => some "p" | 'р' => some "r" | 'с' => some "s" | 'т' => some "t"
  | 'у' => some "u" | 'ф' => some "f" | 'х' => some "h" | 'ц' => some "ts"
  | 'ч' => some "ch" | 'ш' => some "sh" | 'щ' => some "sch" | 'ъ' => some ""
  | 'ы' => some "y" | 'ь' => some "" | 'э' => some "e" | 'ю' => some "yu"
  | 'я' => some "ya"
  | 'А' => some "A" | 'Б' => some "B" | 'В' => some "V" | 'Г' => some "G"
  | 'Д' => some "D" | 'Е' => some "E" | 'Ё' => some "Yo" | 'Ж' => some "Zh"
  | 'З' => some "Z" | 'И' => some "I" | 'Й' => some "Y" | 'К' => some "K"
  | 'Л' => some "L" | 'М' => some "M" | 'Н' => some "N" | 'О' => some "O"
  | 'П' => some "P" | 'Р' => some "R" | 'С' => some "S" | 'Т' => some "T"
  | 'У' => some "U" | 'Ф' => some "F" | 'Х' => some "H" | 'Ц' => some "Ts"
  | 'Ч' => some "Ch" | 'Ш' => some "Sh" | 'Щ' => some "Sch" | 'Ъ' => some ""
  | 'Ы' => some "Y" | 'Ь' => some "" | 'Э' => some "E" | 'Ю' => some "Yu"
  | 'Я' => some "Ya"
  | _ => none

/-- `MissileSpider.transliterate_russian` (missile_spider.py lines 38-46):
mapped characters are replaced by their table entry, characters passing the
Unicode `isalnum` test (the opaque `isAl`) or in `(' ', '-', '_')` are kept,
every other character is dropped. -/
def transliterate_russian (isAl : Char → Bool) (text : String) : String :=
  String.mk (text.data.foldl
    (fun acc c =>
      match translitChar c with
      | some r => acc ++ r.data
      | none => if isAl c || c == ' ' || c == '-' || c == '_' then acc ++ [c] else acc)
    [])

/-! ## Filename cleaning (missile_spider.py lines 437-448) -/

/-- The character class of the regex `[a-zA-Z0-9_-]`. -/
def isFilenameChar (c : Char) : Bool :=
  (decide ('a' ≤ c ∧ c ≤ 'z')) || (decide ('A' ≤ c ∧ c ≤ 'Z')) ||
    (decide ('0' ≤ c ∧ c ≤ '9')) || c == '_' || c == '-'

/-- `re.sub(r'[^a-zA-Z0-9_-]', '_', s)`. -/
def replaceNonFilename (l : List Char) : List Char :=
  l.map (fun c => if isFilenameChar c then c else '_')

/-- `re.sub(r'_+', '_', s)`: collapse each run of underscores to one. -/
def collapseU : List Char → List Char
  | [] => []
  | [c] => [c]
  | a :: b :: rest =>
    if a = '_' ∧ b = '_' then collapseU (b :: rest) else a :: collapseU (b :: rest)

/-- Drop leading underscores (one side of Python `strip('_')`). -/
def dropLeadU : List Char → List Char
  | [] => []
  | c :: rest => if c = '_' then dropLeadU rest else c :: rest

/-- Python `strip('_')`: drop underscores from both ends. -/
def stripU (l : List Char) : List Char :=
  (dropLeadU ((dropLeadU l).reverse)).reverse

/-- The clean-name step of `save_individual_missile_data` (lines 438-441):
transliterate, replace every character outside `[a-zA-Z0-9_-]` with `_`,
collapse runs of `_`, strip `_` from both ends. -/
def clean_name (isAl : Char → Bool) (name : String) : String :=
  String.mk (stripU (collapseU (replaceNonFilename (transliterate_russian isAl name).data)))

/-! ## URL prefix (missile_spider.py get_url_prefix, lines 48-54)

The source name is get_url_prefix; it is shortened here to `get_url_pref`. -/

/-- Drop everything through the first `://` of a URL, if present
(the scheme-and-authority split of `urlparse`). -/
def dropSchemeSep : List Char → Option (List Char)
  | [] => none
  | ':' :: '/' :: '/' :: rest => some rest
  | _ :: rest => dropSchemeSep rest

/-- The `.path` component of `urlparse`: after the host (when a scheme is
present), up to the first `?` or `#`. -/
def urlPath (url : String) : String :=
  let l := url.data
  let rest :=
    match dropSchemeSep l with
    | some afterHost => afterHost.dropWhile (fun c => c != '/')
    | none => l
  String.mk (rest.takeWhile (fun c => c != '?' && c != '#'))

/-- Python `str.strip('/')`. -/
def stripSlashes (l : List Char) : List Char :=
  ((l.dropWhile (fun c => c == '/')).reverse.dropWhile (fun c => c == '/')).reverse

/-- Python `str.split('/')` on a list of characters. -/
def splitSlash : List Char → List (List Char)
  | [] => [[]]
  | c :: rest =>
    let r := splitSlash rest
    if c = '/' then [] :: r
    else
      match r with
      | h :: t => (c :: h) :: t
      | [] => [[c]]

/-- `MissileSpider.get_url_prefix` (lines 48-54): second path segment when the
first is `missile`, else the literal `missile`. -/
def get_url_pref (url : String) : String :=
  let path := stripSlashes (urlPath url).data
  match splitSlash path with
  | p0 :: p1 :: _ => if p0 = "missile".data then String.mk p1 else "missile"
  | _ => "missile"

/-- The filename base of `save_individual_missile_data` (lines 443-446):
`{url_prefix}_{clean_name}` truncated to 60 code points. -/
def base_filename (isAl : Char → Bool) (url name : String) : String :=
  let base := get_url_pref url ++ "_" ++ clean_name isAl name
  if base.data.length > 60 then pySlice 60 base else base

/-- The full generated filename (line 448): the base plus `.json`. -/
def save_filename (isAl : Char → Bool) (url name : String) : String :=
  base_filename isAl url name ++ ".json"

/-! ## Pagination discovery (missile_spider.py lines 79-161)

Links enter the model as the already-resolved absolute href strings the
selectors return (`urljoin` resolution is the fetch collaborator's side). -/

/-- `MAX_PAGE_DISCOVERY_LIMIT` (constants.py line 17). -/
def MAX_PAGE_DISCOVERY_LIMIT : Nat := 50

/-- Value of a digit character. -/
def digitVal (c : Char) : Nat := c.toNat - '0'.toNat

/-- Decimal value of a digit run (Python `int` on the matched group). -/
def parseDigits (ds : List Char) : Nat :=
  ds.foldl (fun a c => a * 10 + digitVal c) 0

/-- The regex search `re.search(r'page=(\d+)', url)`: first occurrence of
`page=` followed by at least one digit; the scan advances one character at a
time, as a regex engine does. -/
def pageParamAux : List Char → Option Nat
  | [] => none
  | c :: rest =>
    if c = 'p' ∧ rest.take 4 = ['a', 'g', 'e', '='] then
      let ds := (rest.drop 4).takeWhile Char.isDigit
      if ds = [] then pageParamAux rest else some (parseDigits ds)
    else pageParamAux rest

/-- Page parameter of a URL, when `re.search(r'page=(\d+)', url)` matches. -/
def pageParamOf (url : String) : Option Nat :=
  pageParamAux url.data

/-- `MissileSpider.discover_last_page_number` (lines 142-161): the maximum
page parameter referenced by the pagination links, or the fallback ceiling
`MAX_PAGE_DISCOVERY_LIMIT` when no positive parameter is discoverable. -/
def discover_last_page_number (links : List String) : Nat :=
  let maxPageNum := links.foldl
    (fun acc link =>
      match pageParamOf link with
      | some n => max acc n
      | none => acc) 0
  if maxPageNum > 0 then maxPageNum else MAX_PAGE_DISCOVERY_LIMIT

/-- The URL-construction rule of the generation loop (line 130):
`https://missilery.info/search?page=N` for `N > 0`, the parameterless
first page for `N = 0`. -/
def pageUrl (p : Nat) : String :=
  if p > 0 then "https://missilery.info/search?page=" ++ toString p
  else "https://missilery.info/search"

/-- The spider's frontier bookkeeping: `self.discovered_pages` and
`self.processed_pages`. -/
structure Frontier where
  discovered : List String
  processed : List String
deriving Repr, DecidableEq

/-- One step of the generation loop (lines 129-139): skip a locator already
discovered or processed, otherwise record it and schedule a request. The
second component accumulates the scheduled requests. -/
def genStep (fs : Frontier × List String) (p : Nat) : Frontier × List String :=
  let url := pageUrl p
  if url ∈ fs.1.discovered ∨ url ∈ fs.1.processed then fs
  else ({ fs.1 with discovered := fs.1.discovered ++ [url] }, fs.2 ++ [url])

/-- The generation loop `for page_param in range(0, self.max_page + 1)`
(lines 127-140). -/
def generate_all_pages (fr : Frontier) (maxPage : Nat) : Frontier × List String :=
  (List.range (maxPage + 1)).foldl genStep (fr, [])

/-- One pagination link admission (lines 102-121): links without a page
parameter are not scheduled; links already discovered or processed are
skipped; a new link is recorded and scheduled. -/
def scheduleLink (fs : Frontier × List String) (url : String) : Frontier × List String :=
  match pageParamOf url with
  | none => fs
  | some _ =>
    if url ∈ fs.1.discovered ∨ url ∈ fs.1.processed then fs
    else ({ fs.1 with discovered := fs.1.discovered ++ [url] }, fs.2 ++ [url])

/-- Admission of a whole list of re-reported pagination links. -/
def scheduleLinks (fs : Frontier × List String) (urls : List String) : Frontier × List String :=
  urls.foldl scheduleLink fs

/-! ## Card extraction (missile_spider.py lines 163-288)

A card enters the model with its `h2 a` heading pre-parsed (first text node
and `href` attribute) and the BeautifulSoup-extracted characteristics of its
card body as an association list; the claimed properties concern only the
heading-to-name logic. -/

/-- The `h2 a` heading link of a card: its first text node (if any) and its
`href` attribute. -/
structure HeadingLink where
  text : Option String
  href : String
deriving Repr, DecidableEq

/-- One listing-card fragment. -/
structure Card where
  heading : Option HeadingLink
  characteristics : List (String × String)
deriving Repr, DecidableEq

/-- A basic missile item as built in lines 266-277. -/
structure BasicItem where
  name : String
  detail_page_url : String
  index_page_url : String
  page_number : Nat
  description : String
  is_detailed : Bool
  characteristics : List (String × String)
deriving Repr, DecidableEq

/-- The per-card body of the extraction loop (lines 179-280): skip a card
whose heading has no text node or an empty text (`if not name: continue`);
the emitted name is the *stripped* text (`name = name.strip()` runs after
the emptiness check). `resolveUrl` is the `urljoin(response.url, ·)`
collaborator; an empty `href` is kept as-is because `if detail_url:` guards
the resolution. -/
def emitCard (resolveUrl : String → String) (indexUrl : String) (pageNumber : Nat)
    (c : Card) : Option BasicItem :=
  match c.heading with
  | none => none
  | some h =>
    match h.text with
    | none => none
    | some rawName =>
      if rawName = "" then none
      else
        some
          { name := pyStrip rawName
            detail_page_url := if h.href = "" then h.href else resolveUrl h.href
            index_page_url := indexUrl
            page_number := pageNumber
            description := ""
            is_detailed := false
            characteristics := c.characteristics }

/-- Whether a card carries a usable heading name: a heading link with a
raw text node that is non-empty before stripping. -/
def cardHasName (c : Card) : Bool :=
  match c.heading with
  | none => false
  | some h =>
    match h.text with
    | none => false
    | some rawName => rawName != ""

/-- `MissileSpider.extract_missile_data_from_index` (lines 163-288): filter
the cards to those with an `h2 a` heading (lines 171-175), then run the
emission loop over them. -/
def extract_missile_data_from_index (resolveUrl : String → String)
    (indexUrl : String) (pageNumber : Nat) (cards : List Card) : List BasicItem :=
  (cards.filter (fun c => c.heading.isSome)).filterMap
    (emitCard resolveUrl indexUrl pageNumber)

/-! ## Detail-page field links (missile_spider.py lines 340-360) -/

/-- An anchor inside a `field-items` container: first text node and `href`. -/
structure Anchor where
  text : Option String
  href : Option String
deriving Repr, DecidableEq

/-- Truthiness of the anchor text check `if link_text and link_text.strip():`. -/
def anchorTextTruthy (t : Option String) : Bool :=
  match t with
  | some s => s != "" && pyStrip s != ""
  | none => false

/-- One anchor of the link-collection loop of `parse_detail_page`
(lines 343-353): an anchor with a truthy `href` contributes its resolved
absolute target to `field_urls`, and to `field_links` in *both* branches of
the text test (the source appends `full_url` either way). -/
def fieldLinkStep (resolveUrl : String → String) (acc : List String × List String)
    (a : Anchor) : List String × List String :=
  match a.href with
  | none => acc
  | some href =>
    if href = "" then acc
    else
      let fullUrl := resolveUrl href
      let links :=
        if anchorTextTruthy a.text then acc.1 ++ [fullUrl] else acc.1 ++ [fullUrl]
      (links, acc.2 ++ [fullUrl])

/-- The link-collection loop of `parse_detail_page` (lines 341-353).
Returns `(field_links, field_urls)`. -/
def extract_field_links (resolveUrl : String → String) (anchors : List Anchor) :
    List String × List String :=
  anchors.foldl (fieldLinkStep resolveUrl) ([], [])

/-! ## The normalized store (database_models.py) and the importer
(import_json_to_db.py)

Rows are records of the columns the importer reads or writes; primary keys
are allocated from a single `nextId` counter (`session.flush`), which keeps
ids unique within each table exactly as SQLite autoincrement does. Columns
the importer never touches (`Country.code`, the `description` columns of the
other dimension tables, the free-form columns of `missile_detailed_data`,
which stay NULL) are omitted. Rows of tables without an observed primary key
read (`characteristics`, `missile_images`, `structured_content_links`, whose
ids are only assigned at commit and never read back) carry no id field. -/

/-- Replace the first element satisfying `p` (in-place mutation of the object
returned by `query(...).first()`). -/
def replaceFirst (p : α → Bool) (f : α → α) : List α → List α
  | [] => []
  | x :: xs => if p x then f x :: xs else x :: replaceFirst p f xs

/-- A dimension-table row (`countries`, `purposes`, `base_types`,
`warhead_types`, `guidance_systems`): id and unique display name. -/
structure DimRow where
  id : Nat
  name : String
deriving Repr, DecidableEq

/-- The five dimension kinds. -/
inductive DimKind
  | country
  | purpose
  | baseType
  | warheadType
  | guidanceSystem
deriving Repr, DecidableEq

/-- The missile columns written by `get_or_create_or_update(Missile, ...)`
(import_json_to_db.py lines 145-161 and 263-279). -/
structure MissileFields where
  name : String
  detail_page_url : String
  index_page_url : String
  page_number : Nat
  range_km : Option Nat
  year_developed : Option Nat
  description : String
  country_id : Option Nat
  purpose_id : Option Nat
  base_type_id : Option Nat
  warhead_type_id : Option Nat
  guidance_system_id : Option Nat
  is_detailed : Bool
  scraped_at : Nat
deriving Repr, DecidableEq

/-- A `missiles` row. -/
structure MissileRow where
  id : Nat
  fields : MissileFields
deriving Repr, DecidableEq

/-- A `missile_detailed_data` row as created in lines 296-300. -/
structure DetailedDataRow where
  id : Nat
  missile_id : Nat
  detailed_filename : String
  scraped_at : Nat
deriving Repr, DecidableEq

/-- A `structured_content` row as created in lines 333-338. -/
structure StructuredContentRow where
  id : Nat
  missile_id : Nat
  field_name : String
  field_label : String
  field_text : String
deriving Repr, DecidableEq

/-- A `structured_content_links` row as created in lines 347-351. -/
structure SCLinkRow where
  structured_content_id : Nat
  link_url : String
  link_text : String
deriving Repr, DecidableEq

/-- A `characteristics` row as created in lines 363-367. -/
structure CharacteristicRow where
  missile_id : Nat
  field_name : String
  field_value : String
deriving Repr, DecidableEq

/-- A `missile_images` row as created in lines 381-386. -/
structure ImageRow where
  missile_id : Nat
  image_url : String
  image_type : String
  alt_text : String
deriving Repr, DecidableEq

/-- The statistics aggregator `self.stats` (the `STATS_KEYS` counters the
importer increments, plus `errors`; the `*_updated` keys of child tables are
never incremented and are omitted). -/
structure Stats where
  countries_created : Nat := 0
  countries_updated : Nat := 0
  purposes_created : Nat := 0
  purposes_updated : Nat := 0
  base_types_created : Nat := 0
  base_types_updated : Nat := 0
  warhead_types_created : Nat := 0
  warhead_types_updated : Nat := 0
  guidance_systems_created : Nat := 0
  guidance_systems_updated : Nat := 0
  missiles_created : Nat := 0
  missiles_updated : Nat := 0
  detailed_data_created : Nat := 0
  structured_content_created : Nat := 0
  characteristics_created : Nat := 0
  images_created : Nat := 0
  errors : Nat := 0
deriving Repr, DecidableEq

/-- The importer state: the session's view of every table, the id allocator,
and the statistics aggregator. -/
structure ImportState where
  countries : List DimRow := []
  purposes : List DimRow := []
  base_types : List DimRow := []
  warhead_types : List DimRow := []
  guidance_systems : List DimRow := []
  missiles : List MissileRow := []
  missile_detailed_data : List DetailedDataRow := []
  structured_content : List StructuredContentRow := []
  structured_content_links : List SCLinkRow := []
  characteristics : List CharacteristicRow := []
  missile_images : List ImageRow := []
  nextId : Nat := 1
  stats : Stats := {}
deriving Repr, DecidableEq

/-- The dimension table of a kind. -/
def dimTable (st : ImportState) : DimKind → List DimRow
  | .country => st.countries
  | .purpose => st.purposes
  | .baseType => st.base_types
  | .warheadType => st.warhead_types
  | .guidanceSystem => st.guidance_systems

/-- Write back the dimension table of a kind. -/
def setDimTable (st : ImportState) : DimKind → List DimRow → ImportState
  | .country, t => { st with countries := t }
  | .purpose, t => { st with purposes := t }
  | .baseType, t => { st with base_types := t }
  | .warheadType, t => { st with warhead_types := t }
  | .guidanceSystem, t => { st with guidance_systems := t }

/-- The outcome tag of `get_or_create_or_update`. -/
inductive Action
  | created
  | updated
  | existing
deriving Repr, DecidableEq

/-- `JSONToDatabaseImporter.get_or_create_or_update` (lines 33-57)
instantiated at a dimension class: every dimension class has a `name`
attribute, so the lookup filters by name. In update mode the setattr loop
writes `name := name` onto the matched row; absent a match, a new row is
added and flushed. Returns the row, the action tag, the new table, and the
new id allocator. -/
def getOrCreateDim (update_mode : Bool) (table : List DimRow) (nextId : Nat)
    (name : String) : DimRow × Action × List DimRow × Nat :=
  match table.find? (fun r => r.name == name) with
  | some r =>
    if update_mode then
      ({ r with name := name }, .updated,
        replaceFirst (fun x => x.name == name) (fun x => { x with name := name }) table,
        nextId)
    else (r, .existing, table, nextId)
  | none =>
    (⟨nextId, name⟩, .created, table ++ [⟨nextId, name⟩], nextId + 1)

/-- The Dimension Resolver: `get_or_create_or_update` applied to the
dimension class of kind `k` on the importer state. Returns the new state,
the resolved entity id, and the action tag. -/
def resolve_dimension (update_mode : Bool) (st : ImportState) (k : DimKind)
    (name : String) : ImportState × Nat × Action :=
  let r := getOrCreateDim update_mode (dimTable st k) st.nextId name
  (setDimTable { st with nextId := r.2.2.2 } k r.2.2.1, r.1.id, r.2.1)

/-- The per-kind `*_created` statistics bump. -/
def bumpDimCreated (k : DimKind) (s : Stats) : Stats :=
  match k with
  | .country => { s with countries_created := s.countries_created + 1 }
  | .purpose => { s with purposes_created := s.purposes_created + 1 }
  | .baseType => { s with base_types_created := s.base_types_created + 1 }
  | .warheadType => { s with warhead_types_created := s.warhead_types_created + 1 }
  | .guidanceSystem => { s with guidance_systems_created := s.guidance_systems_created + 1 }

/-- The per-kind `*_updated` statistics bump. -/
def bumpDimUpdated (k : DimKind) (s : Stats) : Stats :=
  match k with
  | .country => { s with countries_updated := s.countries_updated + 1 }
  | .purpose => { s with purposes_updated := s.purposes_updated + 1 }
  | .baseType => { s with base_types_updated := s.base_types_updated + 1 }
  | .warheadType => { s with warhead_types_updated := s.warhead_types_updated + 1 }
  | .guidanceSystem => { s with guidance_systems_updated := s.guidance_systems_updated + 1 }

/-- The statistics bookkeeping after a dimension resolution (the
`if action == 'created': ... elif action == 'updated': ...` blocks). -/
def bumpDimStats (k : DimKind) (act : Action) (st : ImportState) : ImportState :=
  match act with
  | .created => { st with stats := bumpDimCreated k st.stats }
  | .updated => { st with stats := bumpDimUpdated k st.stats }
  | .existing => st

/-- The guarded dimension resolution pattern of the import loops
(`if missile_data.get('country'): ...`): a missing or empty value resolves
to no id and no state change; a truthy value is resolved and counted.
Returns the new state and the optional resolved id. -/
def resolveOptDim (update_mode : Bool) (st : ImportState) (k : DimKind)
    (v : Option String) : ImportState × Option Nat :=
  match v with
  | none => (st, none)
  | some s =>
    if s = "" then (st, none)
    else
      let r := resolve_dimension update_mode st k s
      (bumpDimStats k r.2.2 r.1, some r.2.1)

/-- `get_or_create_or_update` (lines 33-57) instantiated at `Missile`:
`hasattr(Missile, 'name')` holds, so the `elif detail_page_url` branch is
never reached and the lookup filters by *name*. In update mode the setattr
loop overwrites every kwarg column of the matched row; absent a match, a new
row is added and flushed. -/
def getOrCreateOrUpdateMissile (update_mode : Bool) (st : ImportState)
    (kw : MissileFields) : ImportState × MissileRow × Action :=
  match st.missiles.find? (fun m => m.fields.name == kw.name) with
  | some m =>
    if update_mode then
      ({ st with
          missiles := replaceFirst (fun x => x.fields.name == kw.name)
            (fun x => { x with fields := kw }) st.missiles },
        { m with fields := kw }, .updated)
    else (st, m, .existing)
  | none =>
    ({ st with missiles := st.missiles ++ [⟨st.nextId, kw⟩], nextId := st.nextId + 1 },
      ⟨st.nextId, kw⟩, .created)

/-- The missile statistics bookkeeping (lines 163-166 and 281-284). -/
def bumpMissileStats (act : Action) (st : ImportState) : ImportState :=
  match act with
  | .created => { st with stats := { st.stats with missiles_created := st.stats.missiles_created + 1 } }
  | .updated => { st with stats := { st.stats with missiles_updated := st.stats.missiles_updated + 1 } }
  | .existing => st

/-- `JSONToDatabaseImporter.clear_missile_data` (lines 59-77): a no-op
outside update mode or when no missile has the locator; otherwise delete
every child row of the missile from the four child tables and mark the
missile row detailed with a fresh timestamp. -/
def clear_missile_data (update_mode : Bool) (now : Nat) (st : ImportState)
    (url : String) : ImportState :=
  if update_mode then
    match st.missiles.find? (fun m => m.fields.detail_page_url == url) with
    | none => st
    | some m =>
      { st with
        missile_detailed_data := st.missile_detailed_data.filter (fun r => r.missile_id != m.id),
        structured_content := st.structured_content.filter (fun r => r.missile_id != m.id),
        characteristics := st.characteristics.filter (fun r => r.missile_id != m.id),
        missile_images := st.missile_images.filter (fun r => r.missile_id != m.id),
        missiles := replaceFirst (fun x => x.fields.detail_page_url == url)
          (fun x => { x with fields := { x.fields with is_detailed := true, scraped_at := now } })
          st.missiles }
  else st

/-! ## Basic import (import_json_to_db.py lines 79-174)

A basic-records collection file enters the model as the list of parsed
records; the BasicRecord fields required by the data model (`name`,
`detail_page_url`, `index_page_url`, `page_number`) are total, the optional
attributes are `Option`s (a JSON value that is absent or empty is falsy
under the `if missile_data.get(...)` guards). -/

/-- A parsed record of the basic-records collection file. -/
structure BasicRecord where
  name : String
  detail_page_url : String
  index_page_url : String
  page_number : Nat
  country : Option String := none
  purpose : Option String := none
  base : Option String := none
  warhead : Option String := none
  guidance_system : Option String := none
  range_km : Option Nat := none
  year_developed : Option Nat := none
  description : String := ""
  is_detailed : Bool := false
deriving Repr, DecidableEq

/-- The missile kwargs of the basic-import loop (lines 145-161): every
scalar from the record plus the five resolved dimension foreign keys. -/
def basicKw (now : Nat) (r : BasicRecord)
    (cid pid bid wid gid : Option Nat) : MissileFields :=
  { name := r.name
    detail_page_url := r.detail_page_url
    index_page_url := r.index_page_url
    page_number := r.page_number
    range_km := r.range_km
    year_developed := r.year_developed
    description := r.description
    country_id := cid
    purpose_id := pid
    base_type_id := bid
    warhead_type_id := wid
    guidance_system_id := gid
    is_detailed := r.is_detailed
    scraped_at := now }

/-- One iteration of the `import_basic_missiles` loop (lines 86-171):
resolve the five truthy dimension values in order, counting each action,
then create-or-get-or-update the missile row with the resolved foreign keys
and count the action. `now` is `datetime.utcnow()`. -/
def importBasicOne (update_mode : Bool) (now : Nat) (st : ImportState)
    (r : BasicRecord) : ImportState :=
  let c := resolveOptDim update_mode st .country r.country
  let p := resolveOptDim update_mode c.1 .purpose r.purpose
  let b := resolveOptDim update_mode p.1 .baseType r.base
  let w := resolveOptDim update_mode b.1 .warheadType r.warhead
  let g := resolveOptDim update_mode w.1 .guidanceSystem r.guidance_system
  let res := getOrCreateOrUpdateMissile update_mode g.1
    (basicKw now r c.2 p.2 b.2 w.2 g.2)
  bumpMissileStats res.2.2 res.1

/-- `JSONToDatabaseImporter.import_basic_missiles` (lines 79-174): the
sequential loop over the parsed file, followed by the single commit (a no-op
on the state model). -/
def import_basic_missiles (update_mode : Bool) (now : Nat) (st : ImportState)
    (records : List BasicRecord) : ImportState :=
  records.foldl (importBasicOne update_mode now) st

/-! ## Detailed import (import_json_to_db.py lines 176-394) -/

/-- One field payload of a DetailRecord's `structured_content` mapping; the
importer reads it with `.get('label', '')`, `.get('text', '')` and
`if 'links' in field_data and field_data['links']`. -/
structure FieldData where
  label : Option String := none
  text : Option String := none
  links : Option (List String) := none
deriving Repr, DecidableEq

/-- One row of a DetailRecord's `characteristics_table`; read with
`.get('field_name', '')` and `.get('field_value', '')`. -/
structure CharEntry where
  field_name : Option String := none
  field_value : Option String := none
deriving Repr, DecidableEq

/-- The parsed body of one per-record detailed file; each top-level key is
guarded with `if key in detailed_data`. -/
structure DetailData where
  structured_content : Option (List (String × FieldData)) := none
  characteristics_table : Option (List CharEntry) := none
  image_urls : Option (List String) := none
  gallery_images : Option (List String) := none
deriving Repr, DecidableEq

/-- The referenced per-record file of a detailed-index entry: missing on
disk (`os.path.exists` fails, lines 288-290), present but raising on load
or import (the `except` path, lines 321-324), or a parsed body. -/
inductive FileContent
  | missing
  | malformed
  | valid (d : DetailData)
deriving Repr, DecidableEq

/-- One entry of the detailed-index collection file, with its referenced
per-record file. The entry's `scraped_at` ISO timestamp enters the model
already parsed (`datetime.fromisoformat`, line 299). -/
structure DetailEntry where
  name : String
  detail_page_url : String
  index_page_url : String
  page_number : Nat
  detailed_filename : String
  scraped_at : Nat
  payload : FileContent
deriving Repr, DecidableEq

/-- One iteration of the `import_structured_content` loop (lines 331-357):
add and flush a `structured_content` row, count it, then add one link row
per link when the `links` list is present and non-empty, with the link text
truncated to `MAX_LINK_TEXT_LENGTH = 200`. -/
def importStructuredField (mid : Nat) (st : ImportState)
    (f : String × FieldData) : ImportState :=
  let row : StructuredContentRow :=
    { id := st.nextId, missile_id := mid, field_name := f.1,
      field_label := f.2.label.getD "", field_text := f.2.text.getD "" }
  let st1 :=
    { st with
      structured_content := st.structured_content ++ [row],
      nextId := st.nextId + 1,
      stats := { st.stats with
        structured_content_created := st.stats.structured_content_created + 1 } }
  match f.2.links with
  | none => st1
  | some ls =>
    if ls = [] then st1
    else
      { st1 with
        structured_content_links := st1.structured_content_links ++
          ls.map (fun l =>
            { structured_content_id := row.id, link_url := l,
              link_text := pySlice 200 (f.2.text.getD "") }) }

/-- `JSONToDatabaseImporter.import_structured_content` (lines 329-357). -/
def import_structured_content (mid : Nat) (st : ImportState)
    (sc : List (String × FieldData)) : ImportState :=
  sc.foldl (importStructuredField mid) st

/-- One iteration of the `import_characteristics` loop (lines 361-375). -/
def importCharStep (mid : Nat) (st : ImportState) (c : CharEntry) : ImportState :=
  { st with
    characteristics := st.characteristics ++
      [{ missile_id := mid, field_name := c.field_name.getD "",
         field_value := c.field_value.getD "" }],
    stats := { st.stats with
      characteristics_created := st.stats.characteristics_created + 1 } }

/-- `JSONToDatabaseImporter.import_characteristics` (lines 359-375): add one
`characteristics` row per table row and count it. -/
def import_characteristics (mid : Nat) (st : ImportState)
    (ct : List CharEntry) : ImportState :=
  ct.foldl (importCharStep mid) st

/-- One iteration of the `import_images` loop (lines 379-394). -/
def importImageStep (mid : Nat) (imageType : String) (st : ImportState)
    (u : String) : ImportState :=
  { st with
    missile_images := st.missile_images ++
      [{ missile_id := mid, image_url := u, image_type := imageType,
         alt_text := "" }],
    stats := { st.stats with images_created := st.stats.images_created + 1 } }

/-- `JSONToDatabaseImporter.import_images` (lines 377-394): add one
`missile_images` row per URL with the given type and count it. -/
def import_images (mid : Nat) (imageType : String) (st : ImportState)
    (urls : List String) : ImportState :=
  urls.foldl (importImageStep mid imageType) st

/-- The missile lookup-or-create block of the `import_detailed_missiles`
loop (lines 197-284): look the missile up by its detail-page locator (this
query, unlike `get_or_create_or_update`, filters by `detail_page_url`);
when absent, resolve dimensions from the basic-data lookup
(`basic_data.get(url, {})`) and create the missile — again through the
name-keyed `get_or_create_or_update` — counting the actions. -/
def ensureMissile (update_mode : Bool) (now : Nat) (basic : List BasicRecord)
    (st1 : ImportState) (e : DetailEntry) : ImportState × MissileRow :=
  match st1.missiles.find? (fun m => m.fields.detail_page_url == e.detail_page_url) with
  | some m => (st1, m)
  | none =>
    let binfo := basic.find? (fun bn => bn.detail_page_url == e.detail_page_url)
    let c := resolveOptDim update_mode st1 .country (binfo.bind (·.country))
    let p := resolveOptDim update_mode c.1 .purpose (binfo.bind (·.purpose))
    let b := resolveOptDim update_mode p.1 .baseType (binfo.bind (·.base))
    let w := resolveOptDim update_mode b.1 .warheadType (binfo.bind (·.warhead))
    let g := resolveOptDim update_mode w.1 .guidanceSystem (binfo.bind (·.guidance_system))
    let kw : MissileFields :=
      { name := e.name
        detail_page_url := e.detail_page_url
        index_page_url := e.index_page_url
        page_number := e.page_number
        range_km := binfo.bind (·.range_km)
        year_developed := binfo.bind (·.year_developed)
        description := (binfo.map (·.description)).getD ""
        country_id := c.2
        purpose_id := p.2
        base_type_id := b.2
        warhead_type_id := w.2
        guidance_system_id := g.2
        is_detailed := true
        scraped_at := now }
    let res := getOrCreateOrUpdateMissile update_mode g.1 kw
    (bumpMissileStats res.2.2 res.1, res.2.1)

/-- The guard `if 'structured_content' in detailed_data:` (lines 307-308). -/
def stageStructured (mid : Nat) (opt : Option (List (String × FieldData)))
    (st : ImportState) : ImportState :=
  match opt with
  | some sc => import_structured_content mid st sc
  | none => st

/-- The guard `if 'characteristics_table' in detailed_data:` (lines 311-312). -/
def stageChars (mid : Nat) (opt : Option (List CharEntry))
    (st : ImportState) : ImportState :=
  match opt with
  | some ct => import_characteristics mid st ct
  | none => st

/-- The guards on `image_urls` and `gallery_images` (lines 315-319). -/
def stageImages (mid : Nat) (imageType : String) (opt : Option (List String))
    (st : ImportState) : ImportState :=
  match opt with
  | some us => import_images mid imageType st us
  | none => st

/-- The child-insertion block of the `import_detailed_missiles` loop
(lines 295-319): add and flush the detailed-data row, count it, then import
the structured content, the characteristics table and the two image lists
when their keys are present. -/
def insertDetailChildren (e : DetailEntry) (d : DetailData) (mid : Nat)
    (st2 : ImportState) : ImportState :=
  let row : DetailedDataRow :=
    { id := st2.nextId, missile_id := mid,
      detailed_filename := e.detailed_filename, scraped_at := e.scraped_at }
  let st3 :=
    { st2 with
      missile_detailed_data := st2.missile_detailed_data ++ [row],
      nextId := st2.nextId + 1,
      stats := { st2.stats with
        detailed_data_created := st2.stats.detailed_data_created + 1 } }
  let st4 := stageStructured mid d.structured_content st3
  let st5 := stageChars mid d.characteristics_table st4
  let st6 := stageImages mid "main" d.image_urls st5
  stageImages mid "gallery" d.gallery_images st6

/-- One iteration of the `import_detailed_missiles` loop (lines 191-324), in
the source's order: clear in update mode (lines 193-195); look the missile
up or create it (lines 197-284); then a missing referenced file skips the
rest of the iteration *without* touching the statistics (lines 288-290), a
payload that raises is caught by the `except` and counted as one error
(lines 321-324), and a parsed payload inserts the detailed-data row and the
three child families (lines 295-319). -/
def importDetailedOne (update_mode : Bool) (now : Nat) (basic : List BasicRecord)
    (st : ImportState) (e : DetailEntry) : ImportState :=
  let st1 := if update_mode then clear_missile_data update_mode now st e.detail_page_url else st
  let stm := ensureMissile update_mode now basic st1 e
  match e.payload with
  | .missing => stm.1
  | .malformed => { stm.1 with stats := { stm.1.stats with errors := stm.1.stats.errors + 1 } }
  | .valid d => insertDetailChildren e d stm.2.id stm.1

/-- `JSONToDatabaseImporter.import_detailed_missiles` (lines 176-327): the
sequential loop over the detailed index, followed by the single commit (a
no-op on the state model). -/
def import_detailed_missiles (update_mode : Bool) (now : Nat)
    (basic : List BasicRecord) (st : ImportState) (entries : List DetailEntry) :
    ImportState :=
  entries.foldl (importDetailedOne update_mode now basic) st

/-! ## Child-row counting helpers -/

/-- Number of `missile_detailed_data` rows of a missile. -/
def ddCount (st : ImportState) (mid : Nat) : Nat :=
  st.missile_detailed_data.countP (fun r => r.missile_id == mid)

/-- Number of `structured_content` rows of a missile. -/
def scCount (st : ImportState) (mid : Nat) : Nat :=
  st.structured_content.countP (fun r => r.missile_id == mid)

/-- Number of `characteristics` rows of a missile. -/
def charCount (st : ImportState) (mid : Nat) : Nat :=
  st.characteristics.countP (fun r => r.missile_id == mid)

/-- Number of `missile_images` rows of a missile. -/
def imageCount (st : ImportState) (mid : Nat) : Nat :=
  st.missile_images.countP (fun r => r.missile_id == mid)

/-- The structured-content row count a DetailRecord's contents imply. -/
def impliedScCount (d : DetailData) : Nat :=
  (d.structured_content.getD []).length

/-- The characteristic row count a DetailRecord's contents imply. -/
def impliedCharCount (d : DetailData) : Nat :=
  (d.characteristics_table.getD []).length

/-- The image row count a DetailRecord's contents imply (main and gallery). -/
def impliedImageCount (d : DetailData) : Nat :=
  (d.image_urls.getD []).length + (d.gallery_images.getD []).length

/-- A dimension value of a record is settled in a state when, if truthy, an
entity of its kind with that exact name is present. -/
def dimSettled (st : ImportState) (k : DimKind) (v : Option String) : Prop :=
  ∀ s, v = some s → s ≠ "" →
    (((dimTable st k).find? (fun x => x.name == s)).isSome : Prop)

/-- A basic record is settled in a state when the name-keyed missile lookup
hits and every truthy dimension value of the record is present. -/
def recordSettled (st : ImportState) (r : BasicRecord) : Prop :=
  ((st.missiles.find? (fun m => m.fields.name == r.name)).isSome : Prop) ∧
  dimSettled st .country r.country ∧
  dimSettled st .purpose r.purpose ∧
  dimSettled st .baseType r.base ∧
  dimSettled st .warheadType r.warhead ∧
  dimSettled st .guidanceSystem r.guidance_system

/-- One state extends another when every dimension table and the missiles
table of the second is the corresponding table of the first with rows
appended; this is how create-only imports grow the store. -/
def grows (st st2 : ImportState) : Prop :=
  (∀ k, ∃ t, dimTable st2 k = dimTable st k ++ t) ∧
  (∃ t, st2.missiles = st.missiles ++ t)

/-! ## Concrete example data for witnesses and counterexamples -/

/-- A missile row as the basic import would create it for the record
named `X-1` with locator `/m/x1`. -/
def exMissile : MissileRow :=
  ⟨1, { name := "X-1", detail_page_url := "/m/x1", index_page_url := "/p/1",
        page_number := 1, range_km := some 500, year_developed := none,
        description := "", country_id := none, purpose_id := none,
        base_type_id := none, warhead_type_id := none, guidance_system_id := none,
        is_detailed := false, scraped_at := 0 }⟩

/-- A store holding `exMissile` with one detailed-data row, one
structured-content row, two characteristic rows and one image row. -/
def exStore : ImportState :=
  { missiles := [exMissile],
    missile_detailed_data := [⟨5, 1, "x1.json", 0⟩],
    structured_content := [⟨6, 1, "f", "L", "T"⟩],
    characteristics := [⟨1, "a", "1"⟩, ⟨1, "b", "2"⟩],
    missile_images := [⟨1, "img", "main", ""⟩],
    nextId := 7 }

/-- A parsed DetailRecord body with one structured field, two
characteristics and one main image. -/
def exDetail : DetailData :=
  { structured_content := some [("f1", { label := some "L", text := some "T", links := some ["u"] })],
    characteristics_table := some [⟨some "a", some "1"⟩, ⟨some "b", some "2"⟩],
    image_urls := some ["i1"],
    gallery_images := none }

/-- A detailed-index entry for `/m/x1` whose referenced file parses. -/
def exEntry : DetailEntry :=
  { name := "X-1", detail_page_url := "/m/x1", index_page_url := "/p/1",
    page_number := 1, detailed_filename := "x1.json", scraped_at := 3,
    payload := .valid exDetail }

/-- The same entry with its referenced file missing on disk. -/
def exEntryMissing : DetailEntry := { exEntry with payload := .missing }

/-- The same entry with a payload that raises during import. -/
def exEntryBad : DetailEntry := { exEntry with payload := .malformed }

/-- A basic record named `X` with locator `u1`. -/
def exBasicA : BasicRecord :=
  { name := "X", detail_page_url := "u1", index_page_url := "i", page_number := 1 }

/-- A basic record with the same name `X` but the distinct locator `u2`. -/
def exBasicB : BasicRecord :=
  { name := "X", detail_page_url := "u2", index_page_url := "i", page_number := 1 }

/-- The contribution of one anchor to the detail extractor's link lists:
its resolved absolute target when it carries a truthy `href`, nothing
otherwise. -/
def anchorTarget (resolveUrl : String → String) (a : Anchor) : Option String :=
  match a.href with
  | none => none
  | some h => if h = "" then none else some (resolveUrl h)

/-! # Theorems -/

/-! ## Detail-extractor link lists (C8) -/

theorem extract_field_links_foldl (resolveUrl : String → String) (anchors : List Anchor) :
    ∀ acc : List String × List String,
      anchors.foldl (fieldLinkStep resolveUrl) acc =
        (acc.1 ++ anchors.filterMap (anchorTarget resolveUrl),
         acc.2 ++ anchors.filterMap (anchorTarget resolveUrl)) := by
  induction anchors with
  | nil => intro acc; simp
  | cons a t ih =>
    intro acc
    rw [List.foldl_cons, List.filterMap_cons]
    cases h : a.href with
    | none =>
      simp only [fieldLinkStep, anchorTarget, h]
      exact ih acc
    | some s =>
      by_cases hs : s = ""
      · subst hs
        simp only [fieldLinkStep, anchorTarget, h, if_pos rfl]
        exact ih acc
      · simp only [fieldLinkStep, anchorTarget, h, if_neg hs, ite_self]
        rw [ih]
        simp [List.append_assoc]

/-- C8: for every field-items container, the detail extractor's `links`
list equals its `urls` list element for element; both equal the list of
base-URL-resolved absolute targets of the anchors that carry a truthy
`href`, and an anchor without an `href` contributes to neither list. -/
theorem detail_links_equal_urls (resolveUrl : String → String) (anchors : List Anchor) :
    (extract_field_links resolveUrl anchors).1 = (extract_field_links resolveUrl anchors).2 ∧
    (extract_field_links resolveUrl anchors).2 =
      anchors.filterMap (anchorTarget resolveUrl) := by
  unfold extract_field_links
  rw [extract_field_links_foldl resolveUrl anchors ([], [])]
  simp

/-! ## Pagination discovery and generation (C5) -/

theorem scheduleLinks_noop (fs : Frontier × List String) (links : List String)
    (h : ∀ l ∈ links, l ∈ fs.1.discovered) : scheduleLinks fs links = fs := by
  induction links with
  | nil => rfl
  | cons l t ih =>
    have hl : l ∈ fs.1.discovered := h l (List.mem_cons_self l t)
    have hstep : scheduleLink fs l = fs := by
      unfold scheduleLink
      cases pageParamOf l with
      | none => rfl
      | some n => simp [hl]
    unfold scheduleLinks at *
    rw [List.foldl_cons, hstep]
    exact ih (fun x hx => h x (List.mem_cons_of_mem l hx))

/-- C5: a pagination control referencing the page parameters 0, 3 and 7
yields ceiling 7; the generation loop then produces exactly the 8 distinct
listing-page locators of ordinals 1 through 8 (`page=N` being ordinal
`N + 1`, the parameterless first page being ordinal 1), and re-reporting any
already-discovered locator later schedules nothing. -/
theorem pagination_ceiling_and_generation :
    discover_last_page_number
      ["https://missilery.info/search?page=0", "https://missilery.info/search?page=3",
        "https://missilery.info/search?page=7"] = 7 ∧
    (generate_all_pages ⟨[], []⟩ 7).2 = (List.range 8).map pageUrl ∧
    ((generate_all_pages ⟨[], []⟩ 7).2).length = 8 ∧
    ((generate_all_pages ⟨[], []⟩ 7).2).Nodup ∧
    (List.range 8).map (fun n => pageParamOf (pageUrl n)) =
      [none, some 1, some 2, some 3, some 4, some 5, some 6, some 7] ∧
    (∀ links : List String,
      (∀ l ∈ links, l ∈ (generate_all_pages ⟨[], []⟩ 7).1.discovered) →
      scheduleLinks (generate_all_pages ⟨[], []⟩ 7) links = generate_all_pages ⟨[], []⟩ 7) := by
  refine ⟨by decide, by decide, by decide, by decide, by decide, ?_⟩
  intro links h
  exact scheduleLinks_noop _ links h

theorem pagination_ceiling_and_generation_witness :
    scheduleLinks (generate_all_pages ⟨[], []⟩ 7)
      ["https://missilery.info/search?page=3"] = generate_all_pages ⟨[], []⟩ 7 ∧
    discover_last_page_number
      ["https://missilery.info/search?page=0", "https://missilery.info/search?page=3",
        "https://missilery.info/search?page=7"] = 7 :=
  ⟨(pagination_ceiling_and_generation.2.2.2.2.2)
      ["https://missilery.info/search?page=3"] (by decide),
    pagination_ceiling_and_generation.1⟩

/-! ## Card extraction (C4) -/

theorem emitCard_name_inv (resolveUrl : String → String) (indexUrl : String)
    (pageNumber : Nat) (c : Card) (item : BasicItem)
    (hemit : emitCard resolveUrl indexUrl pageNumber c = some item) :
    ∃ h, c.heading = some h ∧ ∃ s, h.text = some s ∧ s ≠ "" ∧ item.name = pyStrip s := by
  unfold emitCard at hemit
  split at hemit
  · cases hemit
  · rename_i h hh
    split at hemit
    · cases hemit
    · rename_i s ht
      split at hemit
      · cases hemit
      · rename_i hs
        obtain rfl := Option.some.inj hemit
        exact ⟨h, hh, s, ht, hs, rfl⟩

theorem emitCard_isSome (resolveUrl : String → String) (indexUrl : String)
    (pageNumber : Nat) (c : Card) :
    (emitCard resolveUrl indexUrl pageNumber c).isSome = cardHasName c := by
  obtain ⟨hd, chars⟩ := c
  cases hd with
  | none => rfl
  | some h =>
    obtain ⟨ht, href⟩ := h
    cases ht with
    | none => rfl
    | some s =>
      by_cases hs : s = ""
      · simp [emitCard, cardHasName, hs]
      · simp [emitCard, cardHasName, hs]

theorem extract_eq_filterMap_emit (resolveUrl : String → String) (indexUrl : String)
    (pageNumber : Nat) (cards : List Card) :
    extract_missile_data_from_index resolveUrl indexUrl pageNumber cards =
      cards.filterMap (emitCard resolveUrl indexUrl pageNumber) := by
  unfold extract_missile_data_from_index
  induction cards with
  | nil => rfl
  | cons c t ih =>
    rw [List.filter_cons, List.filterMap_cons]
    cases hc : c.heading with
    | none =>
      have h2 : emitCard resolveUrl indexUrl pageNumber c = none := by
        unfold emitCard; rw [hc]
      simp [hc, h2, ih]
    | some h =>
      cases he : emitCard resolveUrl indexUrl pageNumber c <;>
        simp [hc, he, List.filterMap_cons, ih]

theorem filterMap_length_countP (f : α → Option β) (l : List α) :
    (l.filterMap f).length = l.countP (fun a => (f a).isSome) := by
  induction l with
  | nil => rfl
  | cons a t ih =>
    cases h : f a <;> simp [List.filterMap_cons, h, List.countP_cons, ih]

/-- C4 (amended): a card produces a record exactly when its heading link
carries a raw text node that is non-empty *before* stripping; the emitted
name is the stripped text, which may be empty for a whitespace-only heading
because the emptiness check `if not name:` precedes `name.strip()`. -/
theorem card_extraction_name_behavior (resolveUrl : String → String) (indexUrl : String)
    (pageNumber : Nat) (cards : List Card) :
    (∀ item ∈ extract_missile_data_from_index resolveUrl indexUrl pageNumber cards,
      ∃ c ∈ cards, ∃ h, c.heading = some h ∧
        ∃ s, h.text = some s ∧ s ≠ "" ∧ item.name = pyStrip s) ∧
    (extract_missile_data_from_index resolveUrl indexUrl pageNumber cards).length =
      cards.countP cardHasName := by
  constructor
  · intro item hitem
    rw [extract_eq_filterMap_emit] at hitem
    obtain ⟨c, hc, hemit⟩ := List.mem_filterMap.mp hitem
    exact ⟨c, hc, emitCard_name_inv resolveUrl indexUrl pageNumber c item hemit⟩
  · rw [extract_eq_filterMap_emit, filterMap_length_countP]
    exact List.countP_congr (fun c _ => by rw [emitCard_isSome resolveUrl indexUrl pageNumber c])

theorem card_extraction_name_behavior_witness :
    (extract_missile_data_from_index (fun s => s) "idx" 1
      [{ heading := some { text := some "X-1", href := "/m/y" }, characteristics := [] },
        { heading := none, characteristics := [] }]).length =
      [({ heading := some { text := some "X-1", href := "/m/y" }, characteristics := [] } : Card),
        { heading := none, characteristics := [] }].countP cardHasName ∧
    ∃ c ∈ [({ heading := some { text := some "X-1", href := "/m/y" }, characteristics := [] } : Card),
        { heading := none, characteristics := [] }], ∃ h, c.heading = some h ∧
      ∃ s, h.text = some s ∧ s ≠ "" ∧
        ({ name := "X-1", detail_page_url := "/m/y", index_page_url := "idx", page_number := 1, description := "", is_detailed := false, characteristics := [] } : BasicItem).name = pyStrip s :=
  ⟨(card_extraction_name_behavior (fun s => s) "idx" 1
      [{ heading := some { text := some "X-1", href := "/m/y" }, characteristics := [] },
        { heading := none, characteristics := [] }]).2,
    (card_extraction_name_behavior (fun s => s) "idx" 1
      [{ heading := some { text := some "X-1", href := "/m/y" }, characteristics := [] },
        { heading := none, characteristics := [] }]).1
      { name := "X-1", detail_page_url := "/m/y", index_page_url := "idx", page_number := 1, description := "", is_detailed := false, characteristics := [] }
      (by decide)⟩

/-- C4 counterexample: a card whose heading text is the whitespace-only
string three-spaces produces a record, and that record's name is empty —
refuting that every emitted BasicRecord has a non-empty name. -/
theorem card_empty_name_emitted :
    (extract_missile_data_from_index (fun s => s) "https://missilery.info/search" 1
      [{ heading := some { text := some "   ", href := "/m/x" }, characteristics := [] }]).map
      (fun i => i.name) = [""] := by decide

/-! ## Filename scheme (C9) -/

/-- C9: the filename base (locator-derived prefix, underscore, transliterated
cleaned name) never exceeds 60 code points; the full filename is the base
plus `.json`; and the scheme is deterministic in the name and the locator
prefix: two locators with the same prefix give the same filename. -/
theorem save_filename_bounded_and_stable (isAl : Char → Bool) (url1 url2 name : String) :
    (base_filename isAl url1 name).data.length ≤ 60 ∧
    save_filename isAl url1 name = base_filename isAl url1 name ++ ".json" ∧
    (get_url_pref url1 = get_url_pref url2 →
      save_filename isAl url1 name = save_filename isAl url2 name) := by
  refine ⟨?_, rfl, ?_⟩
  · unfold base_filename
    by_cases h : (get_url_pref url1 ++ "_" ++ clean_name isAl name).data.length > 60
    · rw [if_pos h]
      unfold pySlice
      have : (String.mk ((get_url_pref url1 ++ "_" ++ clean_name isAl name).data.take 60)).data
          = (get_url_pref url1 ++ "_" ++ clean_name isAl name).data.take 60 := rfl
      rw [this, List.length_take]
      exact min_le_left 60 _
    · rw [if_neg h]
      omega
  · intro h
    unfold save_filename base_filename
    rw [h]

theorem save_filename_bounded_and_stable_witness :
    (base_filename (fun c => c.isAlphanum) "https://missilery.info/missile/r-36m"
      "Р-36М (15А14)").data.length ≤ 60 ∧
    save_filename (fun c => c.isAlphanum) "https://missilery.info/missile/r-36m"
      "Р-36М (15А14)" =
      save_filename (fun c => c.isAlphanum) "https://missilery.info/missile/r-36m"
      "Р-36М (15А14)" :=
  ⟨(save_filename_bounded_and_stable (fun c => c.isAlphanum)
      "https://missilery.info/missile/r-36m" "https://missilery.info/missile/r-36m"
      "Р-36М (15А14)").1,
    (save_filename_bounded_and_stable (fun c => c.isAlphanum)
      "https://missilery.info/missile/r-36m" "https://missilery.info/missile/r-36m"
      "Р-36М (15А14)").2.2 rfl⟩

/-! ## Clean-name token class (C10) -/

theorem replaceNonFilename_class (l : List Char) :
    ∀ c ∈ replaceNonFilename l, isFilenameChar c = true := by
  intro c hc
  obtain ⟨a, _, ha⟩ := List.mem_map.mp hc
  by_cases h : isFilenameChar a = true
  · rw [if_pos h] at ha; subst ha; exact h
  · rw [if_neg h] at ha; subst ha; decide

theorem collapseU_subset (l : List Char) : ∀ x ∈ collapseU l, x ∈ l := by
  induction l using collapseU.induct with
  | case1 => simp [collapseU]
  | case2 c => simp [collapseU]
  | case3 a b rest h ih =>
    intro x hx
    rw [collapseU, if_pos h] at hx
    exact List.mem_cons_of_mem _ (ih x hx)
  | case4 a b rest h ih =>
    intro x hx
    rw [collapseU, if_neg h] at hx
    rcases List.mem_cons.mp hx with rfl | hx
    · exact List.mem_cons_self _ _
    · exact List.mem_cons_of_mem _ (ih x hx)

theorem dropLeadU_subset (l : List Char) : ∀ x ∈ dropLeadU l, x ∈ l := by
  induction l with
  | nil => simp [dropLeadU]
  | cons c rest ih =>
    intro x hx
    rw [dropLeadU] at hx
    by_cases h : c = '_'
    · rw [if_pos h] at hx
      exact List.mem_cons_of_mem _ (ih x hx)
    · rw [if_neg h] at hx
      exact hx

theorem stripU_subset (l : List Char) : ∀ x ∈ stripU l, x ∈ l := by
  intro x hx
  unfold stripU at hx
  have h1 := List.mem_reverse.mp hx
  have h2 := dropLeadU_subset _ _ h1
  have h3 := List.mem_reverse.mp h2
  exact dropLeadU_subset _ _ h3

theorem collapseU_head (a : Char) (l : List Char) :
    (collapseU (a :: l)).head? = some a := by
  induction l generalizing a with
  | nil => rfl
  | cons b rest ih =>
    rw [collapseU]
    by_cases h : a = '_' ∧ b = '_'
    · rw [if_pos h, ih b]
      rw [h.1, h.2]
    · rw [if_neg h]
      rfl

theorem collapseU_chain (l : List Char) :
    (collapseU l).Chain' (fun a b => ¬(a = '_' ∧ b = '_')) := by
  induction l using collapseU.induct with
  | case1 => simp [collapseU]
  | case2 c => simp [collapseU]
  | case3 a b rest h ih =>
    rw [collapseU, if_pos h]
    exact ih
  | case4 a b rest h ih =>
    rw [collapseU, if_neg h]
    refine List.chain'_cons'.mpr ⟨?_, ih⟩
    intro y hy
    rw [collapseU_head b rest] at hy
    cases hy
    exact h

theorem dropLeadU_chain {R : Char → Char → Prop} (l : List Char)
    (h : l.Chain' R) : (dropLeadU l).Chain' R := by
  induction l with
  | nil => exact h
  | cons c rest ih =>
    rw [dropLeadU]
    by_cases hc : c = '_'
    · rw [if_pos hc]
      exact ih h.tail
    · rw [if_neg hc]
      exact h

theorem stripU_chain (l : List Char)
    (h : l.Chain' (fun a b => ¬(a = '_' ∧ b = '_'))) :
    (stripU l).Chain' (fun a b => ¬(a = '_' ∧ b = '_')) := by
  unfold stripU
  have symm1 : ∀ a b : Char, ¬(a = '_' ∧ b = '_') → ¬(b = '_' ∧ a = '_') :=
    fun a b hab hba => hab ⟨hba.2, hba.1⟩
  have h1 := dropLeadU_chain l h
  have h2 : ((dropLeadU l).reverse).Chain' (fun a b => ¬(a = '_' ∧ b = '_')) := by
    rw [List.chain'_reverse]
    exact h1.imp symm1
  have h3 := dropLeadU_chain _ h2
  rw [List.chain'_reverse]
  exact h3.imp symm1

theorem dropLeadU_head (l : List Char) : (dropLeadU l).head? ≠ some '_' := by
  induction l with
  | nil => simp [dropLeadU]
  | cons c rest ih =>
    rw [dropLeadU]
    by_cases hc : c = '_'
    · rw [if_pos hc]
      exact ih
    · rw [if_neg hc]
      intro hcon
      exact hc (Option.some.inj hcon)

theorem dropLeadU_getLast (l : List Char) :
    dropLeadU l = [] ∨ (dropLeadU l).getLast? = l.getLast? := by
  induction l with
  | nil => left; rfl
  | cons c rest ih =>
    rw [dropLeadU]
    by_cases hc : c = '_'
    · rw [if_pos hc]
      rcases ih with h | h
      · left; exact h
      · rcases List.eq_nil_or_concat rest with rfl | ⟨t, x, rfl⟩
        · left; rfl
        · right
          rw [h]
          cases t <;> simp [List.getLast?_concat]
    · rw [if_neg hc]
      right; rfl

theorem stripU_ends (l : List Char) :
    (stripU l).head? ≠ some '_' ∧ (stripU l).getLast? ≠ some '_' := by
  unfold stripU
  constructor
  · rw [List.head?_reverse]
    rcases dropLeadU_getLast ((dropLeadU l).reverse) with h | h
    · rw [h]; simp
    · rw [h, List.getLast?_reverse]
      exact dropLeadU_head l
  · rw [List.getLast?_reverse]
    exact dropLeadU_head _

/-- C10: for every input display name (and every Unicode alphanumeric test),
the transliterate-then-clean step yields a token whose characters all lie in
`[a-zA-Z0-9_-]`, with no two adjacent underscores remaining and no leading or
trailing underscore. -/
theorem clean_name_token_class (isAl : Char → Bool) (name : String) :
    (∀ c ∈ (clean_name isAl name).data, isFilenameChar c = true) ∧
    (clean_name isAl name).data.Chain' (fun a b => ¬(a = '_' ∧ b = '_')) ∧
    (clean_name isAl name).data.head? ≠ some '_' ∧
    (clean_name isAl name).data.getLast? ≠ some '_' := by
  have hdata : (clean_name isAl name).data =
      stripU (collapseU (replaceNonFilename (transliterate_russian isAl name).data)) := rfl
  rw [hdata]
  refine ⟨?_, stripU_chain _ (collapseU_chain _), stripU_ends _⟩
  intro c hc
  exact replaceNonFilename_class _ c (collapseU_subset _ c (stripU_subset _ c hc))

theorem clean_name_token_class_witness :
    (∀ c ∈ (clean_name (fun c => c.isAlphanum) "Тополь-М  (РС-12М2)!").data,
      isFilenameChar c = true) ∧
    (clean_name (fun c => c.isAlphanum) "Тополь-М  (РС-12М2)!").data.head? ≠ some '_' :=
  ⟨(clean_name_token_class (fun c => c.isAlphanum) "Тополь-М  (РС-12М2)!").1,
    (clean_name_token_class (fun c => c.isAlphanum) "Тополь-М  (РС-12М2)!").2.2.1⟩

/-! ## Dimension resolver (C6) -/

theorem find?_append_none (p : α → Bool) (l1 l2 : List α) (h : l1.find? p = none) :
    (l1 ++ l2).find? p = l2.find? p := by
  induction l1 with
  | nil => rfl
  | cons x xs ih =>
    cases hx : p x with
    | true => simp [List.find?_cons, hx] at h
    | false =>
      simp only [List.find?_cons, hx] at h
      rw [List.cons_append]
      simp only [List.find?_cons, hx]
      exact ih h

theorem replaceFirst_find? (p : α → Bool) (f : α → α) (l : List α) (r : α)
    (hl : l.find? p = some r) (hf : ∀ x, p x = true → p (f x) = true) :
    (replaceFirst p f l).find? p = some (f r) := by
  induction l with
  | nil => cases hl
  | cons x xs ih =>
    cases hx : p x with
    | true =>
      simp only [List.find?_cons, hx] at hl
      obtain rfl := Option.some.inj hl
      rw [replaceFirst, if_pos hx]
      simp [List.find?_cons, hf x hx]
    | false =>
      simp only [List.find?_cons, hx] at hl
      rw [replaceFirst, if_neg (by simp [hx])]
      simp only [List.find?_cons, hx]
      exact ih hl

theorem getOrCreateDim_found (u : Bool) (t : List DimRow) (nid : Nat) (n : String) :
    ((getOrCreateDim u t nid n).2.2.1).find? (fun r => r.name == n) =
      some (getOrCreateDim u t nid n).1 := by
  unfold getOrCreateDim
  cases hf : t.find? (fun r => r.name == n) with
  | some r =>
    cases u with
    | false => simpa using hf
    | true =>
      simp only [if_pos]
      exact replaceFirst_find? _ _ t r hf (fun x _ => by simp)
  | none =>
    simp only
    rw [find?_append_none _ t _ hf]
    simp [List.find?_cons]

theorem dimTable_setDimTable (st : ImportState) (k : DimKind) (t : List DimRow) :
    dimTable (setDimTable st k t) k = t := by
  cases k <;> rfl

theorem dimTable_resolve (u : Bool) (st : ImportState) (k : DimKind) (n : String) :
    dimTable (resolve_dimension u st k n).1 k =
      (getOrCreateDim u (dimTable st k) st.nextId n).2.2.1 := by
  unfold resolve_dimension
  exact dimTable_setDimTable _ k _

theorem getOrCreateDim_of_found (u : Bool) (t : List DimRow) (nid : Nat) (n : String)
    (r : DimRow) (h : t.find? (fun x => x.name == n) = some r) :
    (getOrCreateDim u t nid n).1.id = r.id ∧
      (getOrCreateDim u t nid n).2.1 ≠ Action.created := by
  unfold getOrCreateDim
  rw [h]
  cases u <;> simp

/-- C6: resolving the same (kind, name) twice — with either mode on either
call — returns the same entity identifier both times; the second call never
creates, and when no entity of that kind with that exact name exists the
first call creates it. -/
theorem dimension_resolver_converges (u1 u2 : Bool) (st : ImportState) (k : DimKind)
    (n : String) :
    (resolve_dimension u2 (resolve_dimension u1 st k n).1 k n).2.1 =
      (resolve_dimension u1 st k n).2.1 ∧
    (resolve_dimension u2 (resolve_dimension u1 st k n).1 k n).2.2 ≠ Action.created ∧
    ((dimTable st k).find? (fun r => r.name == n) = none →
      (resolve_dimension u1 st k n).2.2 = Action.created) := by
  have hfound : (dimTable (resolve_dimension u1 st k n).1 k).find? (fun r => r.name == n) =
      some (getOrCreateDim u1 (dimTable st k) st.nextId n).1 := by
    rw [dimTable_resolve]
    exact getOrCreateDim_found u1 _ _ n
  obtain ⟨ha, hb⟩ := getOrCreateDim_of_found u2
    (dimTable (resolve_dimension u1 st k n).1 k)
    ((resolve_dimension u1 st k n).1).nextId n _ hfound
  refine ⟨ha, hb, ?_⟩
  intro hnone
  show (getOrCreateDim u1 (dimTable st k) st.nextId n).2.1 = _
  unfold getOrCreateDim
  rw [hnone]

theorem dimension_resolver_converges_witness :
    (resolve_dimension false (resolve_dimension false { } .country "Russia").1
      .country "Russia").2.1 =
      (resolve_dimension false { } .country "Russia").2.1 ∧
    (resolve_dimension false { } .country "Russia").2.2 = Action.created :=
  ⟨(dimension_resolver_converges false false { } .country "Russia").1,
    (dimension_resolver_converges false false { } .country "Russia").2.2 (by decide)⟩

/-! ## Statistics-preservation lemmas for the detailed import -/

theorem setDimTable_stats (st : ImportState) (k : DimKind) (t : List DimRow) :
    (setDimTable st k t).stats = st.stats := by
  cases k <;> rfl

theorem resolve_dimension_stats (u : Bool) (st : ImportState) (k : DimKind) (n : String) :
    (resolve_dimension u st k n).1.stats = st.stats := by
  unfold resolve_dimension
  exact setDimTable_stats _ k _

theorem bumpDimStats_errors (k : DimKind) (a : Action) (st : ImportState) :
    (bumpDimStats k a st).stats.errors = st.stats.errors := by
  cases a <;> cases k <;> rfl

theorem resolveOptDim_errors (u : Bool) (st : ImportState) (k : DimKind) (v : Option String) :
    (resolveOptDim u st k v).1.stats.errors = st.stats.errors := by
  cases v with
  | none => rfl
  | some s =>
    by_cases hs : s = ""
    · simp only [resolveOptDim, if_pos hs]
    · simp only [resolveOptDim, if_neg hs]
      rw [bumpDimStats_errors, resolve_dimension_stats]

theorem getOrCreateOrUpdateMissile_stats (u : Bool) (st : ImportState) (kw : MissileFields) :
    (getOrCreateOrUpdateMissile u st kw).1.stats = st.stats := by
  unfold getOrCreateOrUpdateMissile
  split
  · split <;> rfl
  · rfl

theorem bumpMissileStats_errors (a : Action) (st : ImportState) :
    (bumpMissileStats a st).stats.errors = st.stats.errors := by
  cases a <;> rfl

theorem clear_missile_data_stats (u : Bool) (now : Nat) (st : ImportState) (url : String) :
    (clear_missile_data u now st url).stats = st.stats := by
  unfold clear_missile_data
  split
  · split <;> rfl
  · rfl

theorem ensureMissile_errors (u : Bool) (now : Nat) (basic : List BasicRecord)
    (st1 : ImportState) (e : DetailEntry) :
    (ensureMissile u now basic st1 e).1.stats.errors = st1.stats.errors := by
  unfold ensureMissile
  split
  · rfl
  · simp only
    rw [bumpMissileStats_errors, getOrCreateOrUpdateMissile_stats,
      resolveOptDim_errors, resolveOptDim_errors, resolveOptDim_errors,
      resolveOptDim_errors, resolveOptDim_errors]

/-! ## Error accounting of the detailed import (C7) -/

/-- C7 (amended): processing always continues with the next entry; an entry
whose referenced per-record file is missing is skipped *without* growing the
error count; an entry whose payload raises during import grows the error
count by exactly one. -/
theorem detailed_import_error_accounting (u : Bool) (now : Nat)
    (basic : List BasicRecord) (st : ImportState) (e : DetailEntry)
    (es : List DetailEntry) :
    import_detailed_missiles u now basic st (e :: es) =
      import_detailed_missiles u now basic (importDetailedOne u now basic st e) es ∧
    (e.payload = .missing →
      (importDetailedOne u now basic st e).stats.errors = st.stats.errors) ∧
    (e.payload = .malformed →
      (importDetailedOne u now basic st e).stats.errors = st.stats.errors + 1) := by
  have hst1 : (if u then clear_missile_data u now st e.detail_page_url else st).stats.errors
      = st.stats.errors := by
    cases u
    · rfl
    · show (clear_missile_data true now st e.detail_page_url).stats.errors = _
      rw [clear_missile_data_stats]
  refine ⟨rfl, ?_, ?_⟩
  · intro hp
    unfold importDetailedOne
    rw [hp]
    show (ensureMissile u now basic _ e).1.stats.errors = _
    rw [ensureMissile_errors]
    exact hst1
  · intro hp
    unfold importDetailedOne
    rw [hp]
    show (ensureMissile u now basic _ e).1.stats.errors + 1 = _
    rw [ensureMissile_errors]
    rw [hst1]

theorem detailed_import_error_accounting_witness :
    (importDetailedOne true 13 [] exStore exEntryMissing).stats.errors = exStore.stats.errors ∧
    (importDetailedOne true 13 [] exStore exEntryBad).stats.errors = exStore.stats.errors + 1 :=
  ⟨(detailed_import_error_accounting true 13 [] exStore exEntryMissing []).2.1 rfl,
    (detailed_import_error_accounting true 13 [] exStore exEntryBad []).2.2 rfl⟩

/-- C7 counterexample: an entry whose referenced per-record file is missing
is *not* counted in the statistics aggregator's error count — after
importing it the error count is still zero, where the claim requires one. -/
theorem missing_file_error_not_counted :
    (import_detailed_missiles true 13 [] exStore [exEntryMissing]).stats.errors = 0 := by
  decide

/-! ## Per-record failure and the child tables (C3) -/

theorem countP_filter_bne (f : α → Nat) (mid : Nat) (l : List α) :
    ((l.filter (fun r => f r != mid)).countP (fun r => f r == mid)) = 0 := by
  apply List.countP_eq_zero.mpr
  intro a ha
  have h := List.of_mem_filter ha
  simpa using h

theorem clear_found (now : Nat) (st : ImportState) (url : String) (m : MissileRow)
    (hfind : st.missiles.find? (fun x => x.fields.detail_page_url == url) = some m) :
    clear_missile_data true now st url =
      { st with
        missile_detailed_data := st.missile_detailed_data.filter (fun r => r.missile_id != m.id),
        structured_content := st.structured_content.filter (fun r => r.missile_id != m.id),
        characteristics := st.characteristics.filter (fun r => r.missile_id != m.id),
        missile_images := st.missile_images.filter (fun r => r.missile_id != m.id),
        missiles := replaceFirst (fun x => x.fields.detail_page_url == url)
          (fun x => { x with fields :=
            { x.fields with is_detailed := true, scraped_at := now } }) st.missiles } := by
  unfold clear_missile_data
  rw [if_pos rfl, hfind]

theorem ensureMissile_found (u : Bool) (now : Nat) (basic : List BasicRecord)
    (st1 : ImportState) (e : DetailEntry) (m : MissileRow)
    (hfind : st1.missiles.find?
      (fun x => x.fields.detail_page_url == e.detail_page_url) = some m) :
    ensureMissile u now basic st1 e = (st1, m) := by
  unfold ensureMissile
  rw [hfind]

theorem clear_find? (now : Nat) (st : ImportState) (url : String) (m : MissileRow)
    (hfind : st.missiles.find? (fun x => x.fields.detail_page_url == url) = some m) :
    (clear_missile_data true now st url).missiles.find?
      (fun x => x.fields.detail_page_url == url) =
      some { m with fields := { m.fields with is_detailed := true, scraped_at := now } } := by
  rw [clear_found now st url m hfind]
  exact replaceFirst_find? _ _ _ m hfind (fun x hx => hx)

/-- C3 (corrected, amended): a per-record failure does not abort the batch,
but there is no per-record transaction: in update mode the children are
cleared *before* the referenced file is read, so a record whose file is
missing or whose payload raises leaves the missile with *zero* child rows —
its prior children deleted and nothing re-inserted — while in create-only
mode the same failure leaves every child table untouched. -/
theorem update_mode_failure_clears_children (now : Nat) (basic : List BasicRecord)
    (st : ImportState) (e : DetailEntry) (m : MissileRow)
    (hfind : st.missiles.find?
      (fun x => x.fields.detail_page_url == e.detail_page_url) = some m)
    (hfail : e.payload = .missing ∨ e.payload = .malformed) :
    ddCount (import_detailed_missiles true now basic st [e]) m.id = 0 ∧
    scCount (import_detailed_missiles true now basic st [e]) m.id = 0 ∧
    charCount (import_detailed_missiles true now basic st [e]) m.id = 0 ∧
    imageCount (import_detailed_missiles true now basic st [e]) m.id = 0 ∧
    (import_detailed_missiles false now basic st [e]).missile_detailed_data =
      st.missile_detailed_data ∧
    (import_detailed_missiles false now basic st [e]).structured_content =
      st.structured_content ∧
    (import_detailed_missiles false now basic st [e]).characteristics =
      st.characteristics ∧
    (import_detailed_missiles false now basic st [e]).missile_images =
      st.missile_images := by
  have hone : import_detailed_missiles true now basic st [e] =
      importDetailedOne true now basic st e := rfl
  have honef : import_detailed_missiles false now basic st [e] =
      importDetailedOne false now basic st e := rfl
  set mMarked : MissileRow :=
    { m with fields := { m.fields with is_detailed := true, scraped_at := now } } with hmm
  have hupd : importDetailedOne true now basic st e =
      (match e.payload with
        | .missing => clear_missile_data true now st e.detail_page_url
        | .malformed =>
          { clear_missile_data true now st e.detail_page_url with
            stats := { (clear_missile_data true now st e.detail_page_url).stats with
              errors := (clear_missile_data true now st e.detail_page_url).stats.errors + 1 } }
        | .valid d => insertDetailChildren e d mMarked.id
            (clear_missile_data true now st e.detail_page_url)) := by
    unfold importDetailedOne
    rw [if_pos rfl]
    dsimp only
    rw [ensureMissile_found true now basic _ e mMarked (clear_find? now st _ m hfind)]
  have hco : importDetailedOne false now basic st e =
      (match e.payload with
        | .missing => st
        | .malformed => { st with stats := { st.stats with errors := st.stats.errors + 1 } }
        | .valid d => insertDetailChildren e d m.id st) := by
    unfold importDetailedOne
    rw [if_neg (by simp)]
    dsimp only
    rw [ensureMissile_found false now basic st e m hfind]
  have hcleared : ∀ st' : ImportState, st' = clear_missile_data true now st e.detail_page_url →
      ddCount st' m.id = 0 ∧ scCount st' m.id = 0 ∧
      charCount st' m.id = 0 ∧ imageCount st' m.id = 0 := by
    intro st' hst'
    rw [hst', clear_found now st _ m hfind]
    exact ⟨countP_filter_bne _ m.id _, countP_filter_bne _ m.id _,
      countP_filter_bne _ m.id _, countP_filter_bne _ m.id _⟩
  rcases hfail with hp | hp
  · rw [hone, honef, hupd, hco, hp]
    obtain ⟨h1, h2, h3, h4⟩ := hcleared _ rfl
    exact ⟨h1, h2, h3, h4, rfl, rfl, rfl, rfl⟩
  · rw [hone, honef, hupd, hco, hp]
    obtain ⟨h1, h2, h3, h4⟩ := hcleared _ rfl
    exact ⟨h1, h2, h3, h4, rfl, rfl, rfl, rfl⟩

theorem update_mode_failure_clears_children_witness :
    charCount exStore 1 = 2 ∧
    charCount (import_detailed_missiles true 13 [] exStore [exEntryMissing]) 1 = 0 ∧
    (import_detailed_missiles false 13 [] exStore [exEntryMissing]).characteristics =
      exStore.characteristics :=
  ⟨by decide,
    (update_mode_failure_clears_children 13 [] exStore exEntryMissing exMissile
      (by decide) (Or.inl rfl)).2.2.1,
    (update_mode_failure_clears_children 13 [] exStore exEntryMissing exMissile
      (by decide) (Or.inl rfl)).2.2.2.2.2.2.1⟩

/-! ## Update-mode replace semantics (C1) -/

theorem countP_eq_length_of_mid (mid : Nat) (f : α → Nat) (l : List α)
    (h : ∀ r ∈ l, f r = mid) : l.countP (fun r => f r == mid) = l.length :=
  List.countP_eq_length.mpr (fun a ha => by simp [h a ha])

theorem import_characteristics_spec (mid : Nat) (ct : List CharEntry) :
    ∀ st : ImportState,
      (import_characteristics mid st ct).characteristics =
        st.characteristics ++ ct.map (fun c =>
          { missile_id := mid, field_name := c.field_name.getD "",
            field_value := c.field_value.getD "" }) ∧
      (import_characteristics mid st ct).missile_detailed_data = st.missile_detailed_data ∧
      (import_characteristics mid st ct).structured_content = st.structured_content ∧
      (import_characteristics mid st ct).missile_images = st.missile_images ∧
      (import_characteristics mid st ct).missiles = st.missiles := by
  induction ct with
  | nil => intro st; simp [import_characteristics]
  | cons c t ih =>
    intro st
    have hstep : import_characteristics mid st (c :: t) =
        import_characteristics mid (importCharStep mid st c) t := rfl
    rw [hstep]
    obtain ⟨h1, h2, h3, h4, h5⟩ := ih (importCharStep mid st c)
    exact ⟨by rw [h1]; simp [importCharStep],
      by rw [h2]; rfl, by rw [h3]; rfl, by rw [h4]; rfl, by rw [h5]; rfl⟩

theorem import_images_spec (mid : Nat) (imageType : String) (urls : List String) :
    ∀ st : ImportState,
      (import_images mid imageType st urls).missile_images =
        st.missile_images ++ urls.map (fun u =>
          { missile_id := mid, image_url := u, image_type := imageType, alt_text := "" }) ∧
      (import_images mid imageType st urls).missile_detailed_data = st.missile_detailed_data ∧
      (import_images mid imageType st urls).structured_content = st.structured_content ∧
      (import_images mid imageType st urls).characteristics = st.characteristics ∧
      (import_images mid imageType st urls).missiles = st.missiles := by
  induction urls with
  | nil => intro st; simp [import_images]
  | cons u t ih =>
    intro st
    have hstep : import_images mid imageType st (u :: t) =
        import_images mid imageType (importImageStep mid imageType st u) t := rfl
    rw [hstep]
    obtain ⟨h1, h2, h3, h4, h5⟩ := ih (importImageStep mid imageType st u)
    exact ⟨by rw [h1]; simp [importImageStep],
      by rw [h2]; rfl, by rw [h3]; rfl, by rw [h4]; rfl, by rw [h5]; rfl⟩

theorem importStructuredField_fields (mid : Nat) (st : ImportState)
    (f : String × FieldData) :
    (importStructuredField mid st f).structured_content =
      st.structured_content ++
        [{ id := st.nextId, missile_id := mid, field_name := f.1,
           field_label := f.2.label.getD "", field_text := f.2.text.getD "" }] ∧
    (importStructuredField mid st f).characteristics = st.characteristics ∧
    (importStructuredField mid st f).missile_detailed_data = st.missile_detailed_data ∧
    (importStructuredField mid st f).missile_images = st.missile_images ∧
    (importStructuredField mid st f).missiles = st.missiles := by
  unfold importStructuredField
  cases f.2.links with
  | none => exact ⟨rfl, rfl, rfl, rfl, rfl⟩
  | some ls =>
    dsimp only
    by_cases hl : ls = []
    · rw [if_pos hl]; exact ⟨rfl, rfl, rfl, rfl, rfl⟩
    · rw [if_neg hl]; exact ⟨rfl, rfl, rfl, rfl, rfl⟩

theorem import_structured_content_spec (mid : Nat) (sc : List (String × FieldData)) :
    ∀ st : ImportState, ∃ added : List StructuredContentRow,
      (import_structured_content mid st sc).structured_content =
        st.structured_content ++ added ∧
      added.length = sc.length ∧ (∀ r ∈ added, r.missile_id = mid) ∧
      (import_structured_content mid st sc).characteristics = st.characteristics ∧
      (import_structured_content mid st sc).missile_detailed_data =
        st.missile_detailed_data ∧
      (import_structured_content mid st sc).missile_images = st.missile_images ∧
      (import_structured_content mid st sc).missiles = st.missiles := by
  induction sc with
  | nil =>
    intro st
    exact ⟨[], by simp [import_structured_content], rfl, by simp, rfl, rfl, rfl, rfl⟩
  | cons f t ih =>
    intro st
    have hstep : import_structured_content mid st (f :: t) =
        import_structured_content mid (importStructuredField mid st f) t := rfl
    obtain ⟨g1, g2, g3, g4, g5⟩ := importStructuredField_fields mid st f
    obtain ⟨added, h1, h2, h3, h4, h5, h6, h7⟩ := ih (importStructuredField mid st f)
    refine ⟨({ id := st.nextId, missile_id := mid, field_name := f.1, field_label := f.2.label.getD "", field_text := f.2.text.getD "" } : StructuredContentRow) :: added, ?_, ?_, ?_, ?_, ?_, ?_, ?_⟩
    · rw [hstep, h1, g1]; simp
    · simp [h2]
    · intro r hr
      rcases List.mem_cons.mp hr with rfl | hr
      · rfl
      · exact h3 r hr
    · rw [hstep, h4, g2]
    · rw [hstep, h5, g3]
    · rw [hstep, h6, g4]
    · rw [hstep, h7, g5]

theorem stageStructured_counts (mid : Nat) (opt : Option (List (String × FieldData)))
    (st : ImportState) :
    scCount (stageStructured mid opt st) mid = scCount st mid + (opt.getD []).length ∧
    charCount (stageStructured mid opt st) mid = charCount st mid ∧
    ddCount (stageStructured mid opt st) mid = ddCount st mid ∧
    imageCount (stageStructured mid opt st) mid = imageCount st mid ∧
    (stageStructured mid opt st).missiles = st.missiles := by
  cases opt with
  | none => exact ⟨by simp [stageStructured], rfl, rfl, rfl, rfl⟩
  | some sc =>
    obtain ⟨added, h1, h2, h3, h4, h5, h6, h7⟩ := import_structured_content_spec mid sc st
    refine ⟨?_, ?_, ?_, ?_, ?_⟩
    · show (import_structured_content mid st sc).structured_content.countP _ = _
      rw [h1, List.countP_append, countP_eq_length_of_mid mid _ added h3, h2]
      rfl
    · show (import_structured_content mid st sc).characteristics.countP _ = _
      rw [h4]; rfl
    · show (import_structured_content mid st sc).missile_detailed_data.countP _ = _
      rw [h5]; rfl
    · show (import_structured_content mid st sc).missile_images.countP _ = _
      rw [h6]; rfl
    · exact h7

theorem stageChars_counts (mid : Nat) (opt : Option (List CharEntry))
    (st : ImportState) :
    charCount (stageChars mid opt st) mid = charCount st mid + (opt.getD []).length ∧
    scCount (stageChars mid opt st) mid = scCount st mid ∧
    ddCount (stageChars mid opt st) mid = ddCount st mid ∧
    imageCount (stageChars mid opt st) mid = imageCount st mid ∧
    (stageChars mid opt st).missiles = st.missiles := by
  cases opt with
  | none => exact ⟨by simp [stageChars], rfl, rfl, rfl, rfl⟩
  | some ct =>
    obtain ⟨h1, h2, h3, h4, h5⟩ := import_characteristics_spec mid ct st
    refine ⟨?_, ?_, ?_, ?_, ?_⟩
    · show (import_characteristics mid st ct).characteristics.countP _ = _
      rw [h1, List.countP_append]
      have hadded : (ct.map (fun c => ({ missile_id := mid, field_name := c.field_name.getD "", field_value := c.field_value.getD "" } : CharacteristicRow))).countP (fun r => r.missile_id == mid) = ct.length := by
        have hh := countP_eq_length_of_mid mid (fun r : CharacteristicRow => r.missile_id)
          (ct.map (fun c => ({ missile_id := mid, field_name := c.field_name.getD "", field_value := c.field_value.getD "" } : CharacteristicRow)))
          (fun r hr => by obtain ⟨c, _, rfl⟩ := List.mem_map.mp hr; rfl)
        rw [List.length_map] at hh
        exact hh
      rw [hadded]
      rfl
    · show (import_characteristics mid st ct).structured_content.countP _ = _
      rw [h3]; rfl
    · show (import_characteristics mid st ct).missile_detailed_data.countP _ = _
      rw [h2]; rfl
    · show (import_characteristics mid st ct).missile_images.countP _ = _
      rw [h4]; rfl
    · exact h5

theorem stageImages_counts (mid : Nat) (imageType : String)
    (opt : Option (List String)) (st : ImportState) :
    imageCount (stageImages mid imageType opt st) mid =
      imageCount st mid + (opt.getD []).length ∧
    scCount (stageImages mid imageType opt st) mid = scCount st mid ∧
    ddCount (stageImages mid imageType opt st) mid = ddCount st mid ∧
    charCount (stageImages mid imageType opt st) mid = charCount st mid ∧
    (stageImages mid imageType opt st).missiles = st.missiles := by
  cases opt with
  | none => exact ⟨by simp [stageImages], rfl, rfl, rfl, rfl⟩
  | some us =>
    obtain ⟨h1, h2, h3, h4, h5⟩ := import_images_spec mid imageType us st
    refine ⟨?_, ?_, ?_, ?_, ?_⟩
    · show (import_images mid imageType st us).missile_images.countP _ = _
      rw [h1, List.countP_append]
      have hadded : (us.map (fun u => ({ missile_id := mid, image_url := u, image_type := imageType, alt_text := "" } : ImageRow))).countP (fun r => r.missile_id == mid) = us.length := by
        have hh := countP_eq_length_of_mid mid (fun r : ImageRow => r.missile_id)
          (us.map (fun u => ({ missile_id := mid, image_url := u, image_type := imageType, alt_text := "" } : ImageRow)))
          (fun r hr => by obtain ⟨c, _, rfl⟩ := List.mem_map.mp hr; rfl)
        rw [List.length_map] at hh
        exact hh
      rw [hadded]
      rfl
    · show (import_images mid imageType st us).structured_content.countP _ = _
      rw [h3]; rfl
    · show (import_images mid imageType st us).missile_detailed_data.countP _ = _
      rw [h2]; rfl
    · show (import_images mid imageType st us).characteristics.countP _ = _
      rw [h4]; rfl
    · exact h5

theorem insertDetailChildren_counts (e : DetailEntry) (d : DetailData) (mid : Nat)
    (st2 : ImportState) :
    ddCount (insertDetailChildren e d mid st2) mid = ddCount st2 mid + 1 ∧
    scCount (insertDetailChildren e d mid st2) mid = scCount st2 mid + impliedScCount d ∧
    charCount (insertDetailChildren e d mid st2) mid =
      charCount st2 mid + impliedCharCount d ∧
    imageCount (insertDetailChildren e d mid st2) mid =
      imageCount st2 mid + impliedImageCount d ∧
    (insertDetailChildren e d mid st2).missiles = st2.missiles := by
  unfold insertDetailChildren
  dsimp only
  set st3 : ImportState :=
    { st2 with
      missile_detailed_data := st2.missile_detailed_data ++
        [{ id := st2.nextId, missile_id := mid,
           detailed_filename := e.detailed_filename, scraped_at := e.scraped_at }],
      nextId := st2.nextId + 1,
      stats := { st2.stats with
        detailed_data_created := st2.stats.detailed_data_created + 1 } } with hst3
  have c3 : ddCount st3 mid = ddCount st2 mid + 1 ∧ scCount st3 mid = scCount st2 mid ∧
      charCount st3 mid = charCount st2 mid ∧ imageCount st3 mid = imageCount st2 mid ∧
      st3.missiles = st2.missiles := by
    refine ⟨?_, rfl, rfl, rfl, rfl⟩
    show (st2.missile_detailed_data ++ _).countP _ = _
    rw [List.countP_append]
    simp [ddCount]
  obtain ⟨s1, s2, s3, s4, s5⟩ := stageStructured_counts mid d.structured_content st3
  obtain ⟨t1, t2, t3, t4, t5⟩ :=
    stageChars_counts mid d.characteristics_table (stageStructured mid d.structured_content st3)
  obtain ⟨u1, u2, u3, u4, u5⟩ := stageImages_counts mid "main" d.image_urls
    (stageChars mid d.characteristics_table (stageStructured mid d.structured_content st3))
  obtain ⟨v1, v2, v3, v4, v5⟩ := stageImages_counts mid "gallery" d.gallery_images
    (stageImages mid "main" d.image_urls
      (stageChars mid d.characteristics_table (stageStructured mid d.structured_content st3)))
  refine ⟨?_, ?_, ?_, ?_, ?_⟩
  · rw [v3, u3, t3, s3, c3.1]
  · rw [v2, u2, t2, s1, c3.2.1]
    rfl
  · rw [v4, u4, t1, s2, c3.2.2.1]
    rfl
  · rw [v1, u1, t4, s4, c3.2.2.2.1, impliedImageCount]
    omega
  · rw [v5, u5, t5, s5, c3.2.2.2.2]

theorem importDetailedOne_update_valid (now : Nat) (basic : List BasicRecord)
    (st : ImportState) (e : DetailEntry) (d : DetailData) (m : MissileRow)
    (hp : e.payload = .valid d)
    (hfind : st.missiles.find?
      (fun x => x.fields.detail_page_url == e.detail_page_url) = some m) :
    ddCount (importDetailedOne true now basic st e) m.id = 1 ∧
    scCount (importDetailedOne true now basic st e) m.id = impliedScCount d ∧
    charCount (importDetailedOne true now basic st e) m.id = impliedCharCount d ∧
    imageCount (importDetailedOne true now basic st e) m.id = impliedImageCount d ∧
    (importDetailedOne true now basic st e).missiles.find?
      (fun x => x.fields.detail_page_url == e.detail_page_url) =
      some { m with fields := { m.fields with is_detailed := true, scraped_at := now } } := by
  set stc := clear_missile_data true now st e.detail_page_url with hstc
  set mM : MissileRow :=
    { m with fields := { m.fields with is_detailed := true, scraped_at := now } } with hmM
  have hfind2 : stc.missiles.find?
      (fun x => x.fields.detail_page_url == e.detail_page_url) = some mM :=
    clear_find? now st _ m hfind
  have hone : importDetailedOne true now basic st e = insertDetailChildren e d mM.id stc := by
    unfold importDetailedOne
    rw [if_pos rfl]
    dsimp only
    rw [ensureMissile_found true now basic _ e mM hfind2, hp]
  have hcounts := insertDetailChildren_counts e d mM.id stc
  have hstc0 : ddCount stc mM.id = 0 ∧ scCount stc mM.id = 0 ∧
      charCount stc mM.id = 0 ∧ imageCount stc mM.id = 0 := by
    rw [hstc, clear_found now st _ m hfind]
    exact ⟨countP_filter_bne (fun r : DetailedDataRow => r.missile_id) m.id _,
      countP_filter_bne (fun r : StructuredContentRow => r.missile_id) m.id _,
      countP_filter_bne (fun r : CharacteristicRow => r.missile_id) m.id _,
      countP_filter_bne (fun r : ImageRow => r.missile_id) m.id _⟩
  refine ⟨?_, ?_, ?_, ?_, ?_⟩
  · rw [hone]
    calc ddCount (insertDetailChildren e d mM.id stc) m.id
        = ddCount stc mM.id + 1 := hcounts.1
      _ = 1 := by rw [hstc0.1]
  · rw [hone]
    calc scCount (insertDetailChildren e d mM.id stc) m.id
        = scCount stc mM.id + impliedScCount d := hcounts.2.1
      _ = impliedScCount d := by rw [hstc0.2.1]; simp
  · rw [hone]
    calc charCount (insertDetailChildren e d mM.id stc) m.id
        = charCount stc mM.id + impliedCharCount d := hcounts.2.2.1
      _ = impliedCharCount d := by rw [hstc0.2.2.1]; simp
  · rw [hone]
    calc imageCount (insertDetailChildren e d mM.id stc) m.id
        = imageCount stc mM.id + impliedImageCount d := hcounts.2.2.2.1
      _ = impliedImageCount d := by rw [hstc0.2.2.2]; simp
  · rw [hone, hcounts.2.2.2.2]
    exact hfind2

/-- C1: importing a DetailRecord for an existing missile in update mode
deletes the missile's child rows and re-inserts them from the record, so
after one import — and equally after importing the same record twice, with
arbitrary import timestamps — the missile holds exactly the child-row
counts implied by the record's contents: one detailed-data row, one
structured-content row per field, one characteristic row per table row and
one image row per main or gallery URL, with no duplication across runs. -/
theorem update_import_replaces_children (now1 now2 : Nat) (basic : List BasicRecord)
    (st : ImportState) (e : DetailEntry) (d : DetailData) (m : MissileRow)
    (hp : e.payload = .valid d)
    (hfind : st.missiles.find?
      (fun x => x.fields.detail_page_url == e.detail_page_url) = some m) :
    (ddCount (import_detailed_missiles true now1 basic st [e]) m.id = 1 ∧
      scCount (import_detailed_missiles true now1 basic st [e]) m.id = impliedScCount d ∧
      charCount (import_detailed_missiles true now1 basic st [e]) m.id = impliedCharCount d ∧
      imageCount (import_detailed_missiles true now1 basic st [e]) m.id =
        impliedImageCount d) ∧
    (ddCount (import_detailed_missiles true now2 basic
        (import_detailed_missiles true now1 basic st [e]) [e]) m.id = 1 ∧
      scCount (import_detailed_missiles true now2 basic
        (import_detailed_missiles true now1 basic st [e]) [e]) m.id = impliedScCount d ∧
      charCount (import_detailed_missiles true now2 basic
        (import_detailed_missiles true now1 basic st [e]) [e]) m.id = impliedCharCount d ∧
      imageCount (import_detailed_missiles true now2 basic
        (import_detailed_missiles true now1 basic st [e]) [e]) m.id =
        impliedImageCount d) := by
  have h1 := importDetailedOne_update_valid now1 basic st e d m hp hfind
  have h2 := importDetailedOne_update_valid now2 basic
    (importDetailedOne true now1 basic st e) e d
    { m with fields := { m.fields with is_detailed := true, scraped_at := now1 } }
    hp h1.2.2.2.2
  exact ⟨⟨h1.1, h1.2.1, h1.2.2.1, h1.2.2.2.1⟩,
    ⟨h2.1, h2.2.1, h2.2.2.1, h2.2.2.2.1⟩⟩

theorem update_import_replaces_children_witness :
    charCount (import_detailed_missiles true 11 [] exStore [exEntry]) 1 = 2 ∧
    imageCount (import_detailed_missiles true 11 [] exStore [exEntry]) 1 = 1 ∧
    charCount (import_detailed_missiles true 12 []
      (import_detailed_missiles true 11 [] exStore [exEntry]) [exEntry]) 1 = 2 ∧
    imageCount (import_detailed_missiles true 12 []
      (import_detailed_missiles true 11 [] exStore [exEntry]) [exEntry]) 1 = 1 := by
  have h := update_import_replaces_children 11 12 [] exStore exEntry exDetail exMissile
    rfl (by decide)
  exact ⟨h.1.2.2.1.trans (by decide), h.1.2.2.2.trans (by decide),
    h.2.2.2.1.trans (by decide), h.2.2.2.2.trans (by decide)⟩

/-! ## Create-only idempotence of the basic import (C2) -/

theorem find?_append_some (p : α → Bool) (l t : List α) (a : α)
    (h : l.find? p = some a) : (l ++ t).find? p = some a := by
  induction l with
  | nil => cases h
  | cons x xs ih =>
    cases hx : p x with
    | true =>
      simp only [List.find?_cons, hx] at h
      rw [List.cons_append]
      simp only [List.find?_cons, hx]
      exact h
    | false =>
      simp only [List.find?_cons, hx] at h
      rw [List.cons_append]
      simp only [List.find?_cons, hx]
      exact ih h

theorem isSome_find?_append (p : α → Bool) (l t : List α)
    (h : (l.find? p).isSome) : ((l ++ t).find? p).isSome := by
  cases hf : l.find? p with
  | none => rw [hf] at h; cases h
  | some a => rw [find?_append_some p l t a hf]; rfl

theorem grows_refl (st : ImportState) : grows st st :=
  ⟨fun _ => ⟨[], by simp⟩, ⟨[], by simp⟩⟩

theorem grows_trans {s1 s2 s3 : ImportState} (h1 : grows s1 s2) (h2 : grows s2 s3) :
    grows s1 s3 := by
  obtain ⟨hd1, m1, hm1⟩ := h1
  obtain ⟨hd2, m2, hm2⟩ := h2
  refine ⟨fun k => ?_, ⟨m1 ++ m2, by rw [hm2, hm1, List.append_assoc]⟩⟩
  obtain ⟨t1, ht1⟩ := hd1 k
  obtain ⟨t2, ht2⟩ := hd2 k
  exact ⟨t1 ++ t2, by rw [ht2, ht1, List.append_assoc]⟩

theorem dimSettled_mono {st st2 : ImportState} {k : DimKind} {v : Option String}
    (hg : grows st st2) (h : dimSettled st k v) : dimSettled st2 k v := by
  intro s hv hs
  obtain ⟨t, ht⟩ := hg.1 k
  rw [ht]
  exact isSome_find?_append _ _ _ (h s hv hs)

theorem recordSettled_mono {st st2 : ImportState} {r : BasicRecord}
    (hg : grows st st2) (h : recordSettled st r) : recordSettled st2 r := by
  obtain ⟨t, ht⟩ := hg.2
  exact ⟨by rw [ht]; exact isSome_find?_append _ _ _ h.1,
    dimSettled_mono hg h.2.1, dimSettled_mono hg h.2.2.1, dimSettled_mono hg h.2.2.2.1,
    dimSettled_mono hg h.2.2.2.2.1, dimSettled_mono hg h.2.2.2.2.2⟩

theorem dimTable_bumpDimStats (k : DimKind) (a : Action) (st : ImportState)
    (k2 : DimKind) : dimTable (bumpDimStats k a st) k2 = dimTable st k2 := by
  cases a <;> cases k2 <;> rfl

theorem missiles_bumpDimStats (k : DimKind) (a : Action) (st : ImportState) :
    (bumpDimStats k a st).missiles = st.missiles := by
  cases a <;> rfl

theorem grows_bumpDimStats (k : DimKind) (a : Action) (st : ImportState) :
    grows st (bumpDimStats k a st) :=
  ⟨fun k2 => ⟨[], by rw [dimTable_bumpDimStats]; simp⟩,
    ⟨[], by rw [missiles_bumpDimStats]; simp⟩⟩

theorem setDimTable_self (st : ImportState) (k : DimKind) :
    setDimTable st k (dimTable st k) = st := by
  cases k <;> rfl

theorem grows_setDimTable (st : ImportState) (k : DimKind) (tnew : List DimRow)
    (nid : Nat) :
    grows st (setDimTable { st with nextId := nid } k (dimTable st k ++ tnew)) := by
  constructor
  · intro k2
    cases k <;> cases k2 <;>
      first
        | exact ⟨tnew, rfl⟩
        | exact ⟨[], by simp [dimTable, setDimTable]⟩
  · exact ⟨[], by cases k <;> simp [setDimTable]⟩

theorem resolve_dimension_existing (st : ImportState) (k : DimKind) (s : String)
    (row : DimRow)
    (hf : (dimTable st k).find? (fun x => x.name == s) = some row) :
    resolve_dimension false st k s = (st, row.id, Action.existing) := by
  obtain ⟨c, p, b, w, g, m, dd, sc, scl, ch, im, nid, stats⟩ := st
  unfold resolve_dimension getOrCreateDim
  rw [hf]
  cases k <;> rfl

theorem grows_resolve_dimension (st : ImportState) (k : DimKind) (n : String) :
    grows st (resolve_dimension false st k n).1 := by
  cases hf : (dimTable st k).find? (fun r => r.name == n) with
  | some row =>
    rw [resolve_dimension_existing st k n row hf]
    exact grows_refl st
  | none =>
    have hshape : (resolve_dimension false st k n).1 =
        setDimTable { st with nextId := st.nextId + 1 } k
          (dimTable st k ++ [⟨st.nextId, n⟩]) := by
      unfold resolve_dimension getOrCreateDim
      rw [hf]
    rw [hshape]
    exact grows_setDimTable st k [⟨st.nextId, n⟩] (st.nextId + 1)

theorem grows_resolveOptDim (st : ImportState) (k : DimKind) (v : Option String) :
    grows st (resolveOptDim false st k v).1 := by
  cases v with
  | none => exact grows_refl st
  | some s =>
    by_cases hs : s = ""
    · simp only [resolveOptDim, if_pos hs]
      exact grows_refl st
    · simp only [resolveOptDim, if_neg hs]
      exact grows_trans (grows_resolve_dimension st k s) (grows_bumpDimStats _ _ _)

theorem getOrCreateOrUpdateMissile_existing (st : ImportState) (kw : MissileFields)
    (m : MissileRow)
    (hf : st.missiles.find? (fun x => x.fields.name == kw.name) = some m) :
    getOrCreateOrUpdateMissile false st kw = (st, m, Action.existing) := by
  unfold getOrCreateOrUpdateMissile
  rw [hf]
  rfl

theorem grows_getOrCreateOrUpdateMissile (st : ImportState) (kw : MissileFields) :
    grows st (getOrCreateOrUpdateMissile false st kw).1 := by
  cases hf : st.missiles.find? (fun x => x.fields.name == kw.name) with
  | some m =>
    rw [getOrCreateOrUpdateMissile_existing st kw m hf]
    exact grows_refl st
  | none =>
    have hshape : (getOrCreateOrUpdateMissile false st kw).1 =
        { st with missiles := st.missiles ++ [⟨st.nextId, kw⟩], nextId := st.nextId + 1 } := by
      unfold getOrCreateOrUpdateMissile
      rw [hf]
    rw [hshape]
    constructor
    · intro k2
      exact ⟨[], by cases k2 <;> simp [dimTable]⟩
    · exact ⟨[⟨st.nextId, kw⟩], rfl⟩

theorem missiles_bumpMissileStats (a : Action) (st : ImportState) :
    (bumpMissileStats a st).missiles = st.missiles := by
  cases a <;> rfl

theorem grows_bumpMissileStats (a : Action) (st : ImportState) :
    grows st (bumpMissileStats a st) := by
  constructor
  · intro k2
    exact ⟨[], by cases a <;> cases k2 <;> simp [bumpMissileStats, dimTable]⟩
  · exact ⟨[], by rw [missiles_bumpMissileStats]; simp⟩

theorem grows_importBasicOne (now : Nat) (st : ImportState) (r : BasicRecord) :
    grows st (importBasicOne false now st r) := by
  unfold importBasicOne
  dsimp only
  exact grows_trans (grows_resolveOptDim st _ _)
    (grows_trans (grows_resolveOptDim _ _ _)
      (grows_trans (grows_resolveOptDim _ _ _)
        (grows_trans (grows_resolveOptDim _ _ _)
          (grows_trans (grows_resolveOptDim _ _ _)
            (grows_trans (grows_getOrCreateOrUpdateMissile _ _)
              (grows_bumpMissileStats _ _))))))

theorem grows_import_basic (now : Nat) (rs : List BasicRecord) :
    ∀ st : ImportState, grows st (import_basic_missiles false now st rs) := by
  induction rs with
  | nil => intro st; exact grows_refl st
  | cons a t ih =>
    intro st
    exact grows_trans (grows_importBasicOne now st a) (ih (importBasicOne false now st a))

theorem resolveOptDim_settles (st : ImportState) (k : DimKind) (v : Option String) :
    dimSettled (resolveOptDim false st k v).1 k v := by
  intro s hv hs
  subst hv
  simp only [resolveOptDim, if_neg hs]
  rw [dimTable_bumpDimStats, dimTable_resolve, getOrCreateDim_found]
  rfl

theorem missileStep_settles (st : ImportState) (kw : MissileFields) :
    (((bumpMissileStats (getOrCreateOrUpdateMissile false st kw).2.2
        (getOrCreateOrUpdateMissile false st kw).1).missiles.find?
      (fun m => m.fields.name == kw.name)).isSome : Prop) := by
  rw [missiles_bumpMissileStats]
  cases hf : st.missiles.find? (fun x => x.fields.name == kw.name) with
  | some m =>
    rw [getOrCreateOrUpdateMissile_existing st kw m hf]
    rw [hf]
    rfl
  | none =>
    have hshape : (getOrCreateOrUpdateMissile false st kw).1 =
        { st with missiles := st.missiles ++ [⟨st.nextId, kw⟩], nextId := st.nextId + 1 } := by
      unfold getOrCreateOrUpdateMissile
      rw [hf]
    rw [hshape]
    show ((st.missiles ++ [(⟨st.nextId, kw⟩ : MissileRow)]).find?
      (fun m => m.fields.name == kw.name)).isSome = true
    rw [find?_append_none _ _ _ hf]
    simp [List.find?_cons]

theorem importBasicOne_settles (now : Nat) (st : ImportState) (r : BasicRecord) :
    recordSettled (importBasicOne false now st r) r := by
  unfold importBasicOne
  dsimp only
  set s1 := (resolveOptDim false st .country r.country).1 with hs1
  set s2 := (resolveOptDim false s1 .purpose r.purpose).1 with hs2
  set s3 := (resolveOptDim false s2 .baseType r.base).1 with hs3
  set s4 := (resolveOptDim false s3 .warheadType r.warhead).1 with hs4
  set s5 := (resolveOptDim false s4 .guidanceSystem r.guidance_system).1 with hs5
  have g2 : grows s1 s2 := hs2 ▸ grows_resolveOptDim s1 _ _
  have g3 : grows s2 s3 := hs3 ▸ grows_resolveOptDim s2 _ _
  have g4 : grows s3 s4 := hs4 ▸ grows_resolveOptDim s3 _ _
  have g5 : grows s4 s5 := hs5 ▸ grows_resolveOptDim s4 _ _
  have gm : ∀ kw : MissileFields, grows s5
      (bumpMissileStats (getOrCreateOrUpdateMissile false s5 kw).2.2
        (getOrCreateOrUpdateMissile false s5 kw).1) :=
    fun kw => grows_trans (grows_getOrCreateOrUpdateMissile s5 kw)
      (grows_bumpMissileStats _ _)
  refine ⟨?_, ?_, ?_, ?_, ?_, ?_⟩
  · exact missileStep_settles s5
      (basicKw now r (resolveOptDim false st DimKind.country r.country).2
        (resolveOptDim false s1 DimKind.purpose r.purpose).2
        (resolveOptDim false s2 DimKind.baseType r.base).2
        (resolveOptDim false s3 DimKind.warheadType r.warhead).2
        (resolveOptDim false s4 DimKind.guidanceSystem r.guidance_system).2)
  · exact dimSettled_mono (grows_trans g2 (grows_trans g3 (grows_trans g4
      (grows_trans g5 (gm _)))))
      (hs1 ▸ resolveOptDim_settles st .country r.country)
  · exact dimSettled_mono (grows_trans g3 (grows_trans g4 (grows_trans g5 (gm _))))
      (hs2 ▸ resolveOptDim_settles s1 .purpose r.purpose)
  · exact dimSettled_mono (grows_trans g4 (grows_trans g5 (gm _)))
      (hs3 ▸ resolveOptDim_settles s2 .baseType r.base)
  · exact dimSettled_mono (grows_trans g5 (gm _))
      (hs4 ▸ resolveOptDim_settles s3 .warheadType r.warhead)
  · exact dimSettled_mono (gm _)
      (hs5 ▸ resolveOptDim_settles s4 .guidanceSystem r.guidance_system)

theorem resolveOptDim_noop (st : ImportState) (k : DimKind) (v : Option String)
    (h : dimSettled st k v) : (resolveOptDim false st k v).1 = st := by
  cases v with
  | none => rfl
  | some s =>
    by_cases hs : s = ""
    · simp only [resolveOptDim, if_pos hs]
    · simp only [resolveOptDim, if_neg hs]
      have hsome := h s rfl hs
      cases hf : (dimTable st k).find? (fun x => x.name == s) with
      | none => rw [hf] at hsome; cases hsome
      | some row =>
        rw [resolve_dimension_existing st k s row hf]
        rfl

theorem importBasicOne_noop (now : Nat) (st : ImportState) (r : BasicRecord)
    (h : recordSettled st r) : importBasicOne false now st r = st := by
  obtain ⟨hm, hc, hp, hb, hw, hg⟩ := h
  unfold importBasicOne
  dsimp only
  rw [resolveOptDim_noop st .country r.country hc]
  rw [resolveOptDim_noop st .purpose r.purpose hp]
  rw [resolveOptDim_noop st .baseType r.base hb]
  rw [resolveOptDim_noop st .warheadType r.warhead hw]
  rw [resolveOptDim_noop st .guidanceSystem r.guidance_system hg]
  cases hf : st.missiles.find? (fun x => x.fields.name == r.name) with
  | none => rw [hf] at hm; cases hm
  | some m =>
    rw [getOrCreateOrUpdateMissile_existing st _ m hf]
    rfl

theorem import_basic_settles (now : Nat) (rs : List BasicRecord) :
    ∀ st : ImportState, ∀ r ∈ rs,
      recordSettled (import_basic_missiles false now st rs) r := by
  induction rs with
  | nil => intro st r hr; cases hr
  | cons a t ih =>
    intro st r hr
    have hstep : import_basic_missiles false now st (a :: t) =
        import_basic_missiles false now (importBasicOne false now st a) t := rfl
    rcases List.mem_cons.mp hr with rfl | hr
    · rw [hstep]
      exact recordSettled_mono (grows_import_basic now t _)
        (importBasicOne_settles now st r)
    · rw [hstep]
      exact ih _ r hr

theorem import_basic_noop (now : Nat) (rs : List BasicRecord) :
    ∀ st : ImportState, (∀ r ∈ rs, recordSettled st r) →
      import_basic_missiles false now st rs = st := by
  induction rs with
  | nil => intro st _; rfl
  | cons a t ih =>
    intro st h
    have hstep : import_basic_missiles false now st (a :: t) =
        import_basic_missiles false now (importBasicOne false now st a) t := rfl
    rw [hstep, importBasicOne_noop now st a (h a (List.mem_cons_self a t))]
    exact ih st (fun r hr => h r (List.mem_cons_of_mem a hr))

/-- C2 (amended): importing the same well-formed basic-records file twice in
create-only mode leaves the store bit-for-bit unchanged on the second run —
zero net new missile rows and zero error growth — but the matching of an
incoming record to its existing entity happens by *name* (the `hasattr`
check in `get_or_create_or_update` sees `Missile.name` first), not by
detail-page locator. -/
theorem basic_import_idempotent (now1 now2 : Nat) (st : ImportState)
    (rs : List BasicRecord) :
    import_basic_missiles false now2 (import_basic_missiles false now1 st rs) rs =
      import_basic_missiles false now1 st rs ∧
    (import_basic_missiles false now2
        (import_basic_missiles false now1 st rs) rs).missiles.length =
      (import_basic_missiles false now1 st rs).missiles.length ∧
    (import_basic_missiles false now2
        (import_basic_missiles false now1 st rs) rs).stats.errors =
      (import_basic_missiles false now1 st rs).stats.errors := by
  have h := import_basic_noop now2 rs _ (import_basic_settles now1 rs st)
  exact ⟨h, by rw [h], by rw [h]⟩

/-- C2 counterexample: the importer matches missiles by name, not by
detail-page locator. Importing the records `X/u1` and `X/u2` (same name,
distinct locators) into an empty store creates a single missile row with
locator `u1`; the lookup the importer performs for the second record finds
the entity with locator `u1`, not `u2` — refuting that each incoming record
is matched to its already-existing entity by detail-page locator. -/
theorem basic_import_matches_by_name_not_locator :
    (import_basic_missiles false 0 { } [exBasicA, exBasicB]).missiles.map
      (fun m => m.fields.detail_page_url) = ["u1"] ∧
    ((import_basic_missiles false 0 { } [exBasicA, exBasicB]).missiles.find?
      (fun m => m.fields.name == exBasicB.name)).map
      (fun m => m.fields.detail_page_url) = some "u1" ∧
    exBasicB.detail_page_url = "u2" := by
  decide

/-- C3 counterexample: the store `exStore` holds two characteristic rows and
one detailed-data row for the missile with locator `/m/x1`; importing (in
update mode) an index entry for that locator whose referenced file is
missing leaves the missile with zero characteristic, detailed-data,
structured-content and image rows — the prior state is not retained and no
record's children were committed, refuting the per-record transaction
boundary. -/
theorem mid_import_failure_partial_state :
    charCount exStore 1 = 2 ∧ ddCount exStore 1 = 1 ∧
    scCount exStore 1 = 1 ∧ imageCount exStore 1 = 1 ∧
    charCount (import_detailed_missiles true 13 [] exStore [exEntryMissing]) 1 = 0 ∧
    ddCount (import_detailed_missiles true 13 [] exStore [exEntryMissing]) 1 = 0 ∧
    scCount (import_detailed_missiles true 13 [] exStore [exEntryMissing]) 1 = 0 ∧
    imageCount (import_detailed_missiles true 13 [] exStore [exEntryMissing]) 1 = 0 := by
  decide

end Missilery
